import Mathlib

/-!
Shallow embedding of src/placetools/place_engine.py.

Coordinates are modelled with the rational numbers; the Python source uses
binary floating point, which we treat as exact real arithmetic, the usual
idealisation for geometric specifications.  The builtin Python round
(round half to even, the so called bankers rounding) is modelled exactly
by pyRound below.

The Micro tree keeps the field layout of the Python class except for two
derived caches that no claim mentions and that cannot live in a purely
functional tree: the non owning parent back reference, and the two parent
relative grid caches rel_grid_x and rel_grid_y of Micro (they are computed
from the parent pointer).  Cells are modelled with every field of the
Python dataclass.

The Python methods mutate objects in place; here every method returns the
updated value.  Methods named exactly like the source keep its call
structure.  The recursive tree walks clone and flip_horizontal call
set_origin on freshly built arguments, so they are given a fuel argument;
every entry point passes the tree depth as fuel, which is enough, as the
depth preservation theorems further down show.
-/

namespace PlaceEngine

/-- pyRound models the builtin Python round on a rational: round to the
nearest integer, ties to the even integer. -/
def pyRound (q : ℚ) : ℤ :=
  if Int.fract q < 1/2 then ⌊q⌋
  else if 1/2 < Int.fract q then ⌊q⌋ + 1
  else if ⌊q⌋ % 2 = 0 then ⌊q⌋ else ⌊q⌋ + 1

/-- SiteInfo models the dataclass SiteInfo: a fixed pitch grid.  Defaults
are width 0.14 and height 0.9 as in the source. -/
structure SiteInfo where
  width : ℚ := 7/50
  height : ℚ := 9/10
deriving DecidableEq, Repr

/-- snap_to_grid models SiteInfo.snap_to_grid: each axis is rounded
independently to the nearest multiple of the axis pitch. -/
def SiteInfo.snap_to_grid (si : SiteInfo) (x y : ℚ) : ℚ × ℚ :=
  (pyRound (x / si.width) * si.width, pyRound (y / si.height) * si.height)

/-- to_grid_coords models SiteInfo.to_grid_coords: integer lattice index
of a real coordinate, round to nearest. -/
def SiteInfo.to_grid_coords (si : SiteInfo) (x y : ℚ) : ℤ × ℤ :=
  (pyRound (x / si.width), pyRound (y / si.height))

/-- from_grid_coords models SiteInfo.from_grid_coords: exact conversion
from lattice indices to coordinates. -/
def SiteInfo.from_grid_coords (si : SiteInfo) (gx gy : ℤ) : ℚ × ℚ :=
  (gx * si.width, gy * si.height)

/-- Orientation models the Orientation enum of the source: N normal, S
rotated 180 degrees, FN flipped about the Y axis, FS flipped about the X
axis. -/
inductive Orientation : Type where
  | N : Orientation
  | S : Orientation
  | FN : Orientation
  | FS : Orientation
deriving DecidableEq, Repr

/-- Cell models the Cell dataclass together with the attributes installed
by its post init hook: cached absolute position, hierarchical path, site
info, grid caches and bounding box caches. -/
structure Cell where
  name : String
  x : ℚ
  y : ℚ
  orientation : Orientation := .N
  width : ℚ := 7/50
  height : ℚ := 9/10
  absolute_x : ℚ
  absolute_y : ℚ
  hierarchical_path : String
  site_info : SiteInfo
  grid_x : ℤ
  grid_y : ℤ
  rel_grid_x : ℤ
  rel_grid_y : ℤ
  bbox_min_x : ℚ
  bbox_min_y : ℚ
  bbox_max_x : ℚ
  bbox_max_y : ℚ
deriving DecidableEq, Repr

/-- update_grid_coordinates models Cell._update_grid_coordinates. -/
def Cell.update_grid_coordinates (c : Cell) : Cell :=
  { c with
    grid_x := (c.site_info.to_grid_coords c.absolute_x c.absolute_y).1
    grid_y := (c.site_info.to_grid_coords c.absolute_x c.absolute_y).2
    rel_grid_x := (c.site_info.to_grid_coords c.x c.y).1
    rel_grid_y := (c.site_info.to_grid_coords c.x c.y).2 }

/-- update_bbox models Cell._update_bbox: the box is always computed in
the canonical N orientation from the cached absolute position. -/
def Cell.update_bbox (c : Cell) : Cell :=
  { c with
    bbox_min_x := c.absolute_x
    bbox_min_y := c.absolute_y
    bbox_max_x := c.absolute_x + c.width
    bbox_max_y := c.absolute_y + c.height }

/-- Cell.init models the Cell constructor followed by its post init hook:
the absolute position starts at the stored position, the path is the bare
name, the site info is the default, and both caches are refreshed. -/
def Cell.init (name : String) (x y : ℚ) (orientation : Orientation := .N)
    (width : ℚ := 7/50) (height : ℚ := 9/10) : Cell :=
  Cell.update_bbox (Cell.update_grid_coordinates
    { name := name, x := x, y := y, orientation := orientation
      width := width, height := height
      absolute_x := x, absolute_y := y
      hierarchical_path := name, site_info := {}
      grid_x := 0, grid_y := 0, rel_grid_x := 0, rel_grid_y := 0
      bbox_min_x := 0, bbox_min_y := 0, bbox_max_x := 0, bbox_max_y := 0 })

/-- set_rel_position models Cell.set_rel_position; the optional argument
models the Python default None. -/
def Cell.set_rel_position (c : Cell) (rel_x rel_y : ℚ)
    (si : Option SiteInfo := none) : Cell :=
  let c1 := match si with
    | some s => { c with site_info := s }
    | none => c
  Cell.update_bbox (Cell.update_grid_coordinates { c1 with x := rel_x, y := rel_y })

/-- set_absolute_position models Cell.set_absolute_position: given the
origin of the owning container it caches origin plus stored position. -/
def Cell.set_absolute_position (c : Cell) (origin_x origin_y : ℚ)
    (si : Option SiteInfo := none) : Cell :=
  let c1 := match si with
    | some s => { c with site_info := s }
    | none => c
  Cell.update_bbox (Cell.update_grid_coordinates
    { c1 with absolute_x := origin_x + c1.x, absolute_y := origin_y + c1.y })

/-- set_hierarchical_path models Cell.set_hierarchical_path; an empty
parent path (falsy in Python) leaves the bare name. -/
def Cell.set_hierarchical_path (c : Cell) (parent_path : String) : Cell :=
  if parent_path = "" then { c with hierarchical_path := c.name }
  else { c with hierarchical_path := parent_path ++ "/" ++ c.name }

/-- set_orientation models Cell.set_orientation: the tag changes, the
stored geometry does not. -/
def Cell.set_orientation (c : Cell) (o : Orientation) : Cell :=
  { c with orientation := o }

/-- set_size models Cell.set_size: size and bbox only. -/
def Cell.set_size (c : Cell) (width height : ℚ) : Cell :=
  Cell.update_bbox { c with width := width, height := height }

/-- get_placement_origin models Cell.get_placement_origin: the anchor
corner reported to the external tool for each orientation. -/
def Cell.get_placement_origin (c : Cell) : ℚ × ℚ :=
  match c.orientation with
  | .N => (c.absolute_x, c.absolute_y)
  | .S => (c.absolute_x + c.width, c.absolute_y + c.height)
  | .FN => (c.absolute_x + c.width, c.absolute_y)
  | .FS => (c.absolute_x, c.absolute_y + c.height)

/-- get_orientation_for_row models Cell.get_orientation_for_row.  The
source computes the lattice row of row_y, tests membership of the current
orientation in left_ori = [FS, N] (else it is in [FN, S]), and picks the
result from the row parity. -/
def Cell.get_orientation_for_row (c : Cell) (row_y : ℚ) : Orientation :=
  let grid_y : ℤ := pyRound (row_y / c.site_info.height)
  if c.orientation = .FS ∨ c.orientation = .N then
    if grid_y % 2 = 0 then .FS else .N
  else
    if grid_y % 2 = 0 then .S else .FN

/-- flip_oritentation models Cell.flip_oritentation (the source spells the
name this way): N and FN swap, S and FS swap. -/
def Cell.flip_oritentation (c : Cell) : Cell :=
  match c.orientation with
  | .N => { c with orientation := .FN }
  | .S => { c with orientation := .FS }
  | .FN => { c with orientation := .N }
  | .FS => { c with orientation := .S }

/-- get_bbox models Cell.get_bbox. -/
def Cell.get_bbox (c : Cell) : ℚ × ℚ × ℚ × ℚ :=
  (c.bbox_min_x, c.bbox_min_y, c.bbox_max_x, c.bbox_max_y)

/-- clone models Cell.clone: a fresh Cell from the primary fields, with
path, site info and absolute position copied over and the grid cache
refreshed.  The source does not refresh the bbox cache here; neither do
we. -/
def Cell.clone (c : Cell) : Cell :=
  Cell.update_grid_coordinates
    { Cell.init c.name c.x c.y c.orientation c.width c.height with
      hierarchical_path := c.hierarchical_path
      site_info := c.site_info
      absolute_x := c.absolute_x
      absolute_y := c.absolute_y }

instance : Inhabited Cell := ⟨Cell.init "" 0 0⟩

/-- CellRecord models the dictionary produced by Cell.to_dict, restricted
to the keys that Micro._load_from_dict and Micro.load_from_file actually
read back (name, rel_x, rel_y, orientation, width, height).  The source
additionally emits derived diagnostic keys (grid caches, absolute and
placement coordinates rounded to three decimals, the bounding box and the
hierarchical path) that no loader ever reads; they are omitted here.  The
orientation string of the JSON form corresponds one to one with the
Orientation enum. -/
structure CellRecord where
  name : String
  rel_x : ℚ
  rel_y : ℚ
  orientation : Orientation
  width : ℚ
  height : ℚ
deriving DecidableEq, Repr

/-- to_dict models Cell.to_dict restricted to the keys a loader reads. -/
def Cell.to_dict (c : Cell) : CellRecord :=
  { name := c.name, rel_x := c.x, rel_y := c.y
    orientation := c.orientation, width := c.width, height := c.height }

/-- Micro models the Micro class: a named container owning cells and sub
micros.  The parent back reference and the parent relative grid caches of
the source are omitted (see the file comment). -/
inductive Micro : Type where
  | mk (name : String) (origin_x origin_y : ℚ) (description : String)
      (site_info : SiteInfo) (cells : List Cell) (hierarchical_path : String)
      (grid_x grid_y : ℤ) (sub_micros : List Micro) : Micro
deriving Repr

/-- name projection of a Micro. -/
def Micro.name : Micro → String
  | .mk n _ _ _ _ _ _ _ _ _ => n

/-- origin_x projection of a Micro. -/
def Micro.origin_x : Micro → ℚ
  | .mk _ ox _ _ _ _ _ _ _ _ => ox

/-- origin_y projection of a Micro. -/
def Micro.origin_y : Micro → ℚ
  | .mk _ _ oy _ _ _ _ _ _ _ => oy

/-- description projection of a Micro. -/
def Micro.description : Micro → String
  | .mk _ _ _ d _ _ _ _ _ _ => d

/-- site_info projection of a Micro. -/
def Micro.site_info : Micro → SiteInfo
  | .mk _ _ _ _ si _ _ _ _ _ => si

/-- cells projection of a Micro. -/
def Micro.cells : Micro → List Cell
  | .mk _ _ _ _ _ cs _ _ _ _ => cs

/-- hierarchical_path projection of a Micro. -/
def Micro.hierarchical_path : Micro → String
  | .mk _ _ _ _ _ _ hp _ _ _ => hp

/-- grid_x projection of a Micro. -/
def Micro.grid_x : Micro → ℤ
  | .mk _ _ _ _ _ _ _ gx _ _ => gx

/-- grid_y projection of a Micro. -/
def Micro.grid_y : Micro → ℤ
  | .mk _ _ _ _ _ _ _ _ gy _ => gy

/-- sub_micros projection of a Micro. -/
def Micro.sub_micros : Micro → List Micro
  | .mk _ _ _ _ _ _ _ _ _ subs => subs

/-- Micro.init models the Micro constructor: empty cell and sub micro
lists, path equal to the bare name, grid cache of the origin.  The
constructor of the source ends with a call of _update_absolute_positions,
a no op on the freshly created empty lists.  The origin is stored as
given: the constructor does not snap it. -/
def Micro.init (name : String) (origin_x origin_y : ℚ) (description : String := "")
    (site_info : SiteInfo := {}) : Micro :=
  .mk name origin_x origin_y description site_info [] name
    (site_info.to_grid_coords origin_x origin_y).1
    (site_info.to_grid_coords origin_x origin_y).2 []

instance : Inhabited Micro := ⟨Micro.init "" 0 0⟩

mutual
/-- nodeCount counts the Micro nodes of a tree; it is the termination
measure of the recursive tree walks below. -/
def Micro.nodeCount : Micro → ℕ
  | .mk _ _ _ _ _ _ _ _ _ subs => 1 + Micro.nodeCountList subs

/-- nodeCountList sums nodeCount over a list of sub micros. -/
def Micro.nodeCountList : List Micro → ℕ
  | [] => 0
  | s :: rest => s.nodeCount + Micro.nodeCountList rest
end

mutual
/-- depth is the height of a Micro tree; it is the fuel handed to clone
and flip_horizontal. -/
def Micro.depth : Micro → ℕ
  | .mk _ _ _ _ _ _ _ _ _ subs => 1 + Micro.depthList subs

/-- depthList is the maximal depth over a list of sub micros. -/
def Micro.depthList : List Micro → ℕ
  | [] => 0
  | s :: rest => max s.depth (Micro.depthList rest)
end

mutual
/-- set_hierarchical_path models Micro.set_hierarchical_path: compute the
own path from the parent path, then push it to every owned cell and,
recursively, every sub micro. -/
def Micro.set_hierarchical_path : Micro → String → Micro
  | .mk n ox oy d si cs _ gx gy subs, parent_path =>
    let np := if parent_path = "" then n else parent_path ++ "/" ++ n
    .mk n ox oy d si (cs.map (fun c => c.set_hierarchical_path np)) np gx gy
      (Micro.setPathList subs np)

/-- setPathList pushes a parent path to each sub micro in turn. -/
def Micro.setPathList : List Micro → String → List Micro
  | [], _ => []
  | s :: rest, p => s.set_hierarchical_path p :: Micro.setPathList rest p
end

/-- withOriginGrid is the first half of Micro.set_origin and of
Micro.move_by: store the given origin and refresh the grid cache
(Micro._update_grid_coordinates of the source, without the parent
relative part that this model omits). -/
def Micro.withOriginGrid : Micro → ℚ → ℚ → Micro
  | .mk n _ _ d si cs hp _ _ subs, x, y =>
    .mk n x y d si cs hp (si.to_grid_coords x y).1 (si.to_grid_coords x y).2 subs

/-- updCellForOrigin is the cell update step of
Micro._update_absolute_positions: refresh the absolute position of the
cell from the new origin, then derive and assign the row based
orientation. -/
def updCellForOrigin (ox oy : ℚ) (si : SiteInfo) (c : Cell) : Cell :=
  let c1 := c.set_absolute_position ox oy (some si)
  c1.set_orientation (c1.get_orientation_for_row c1.absolute_y)

mutual
/-- update_absolute_positions models Micro._update_absolute_positions:
every owned cell gets its absolute position refreshed from the current
origin and its orientation rederived from its row; every sub micro gets
set_origin of the current origin plus its own origin. -/
def Micro.update_absolute_positions : Micro → Micro
  | .mk n ox oy d si cs hp gx gy subs =>
    .mk n ox oy d si (cs.map (updCellForOrigin ox oy si)) hp gx gy
      (Micro.updateSubsForOrigin subs ox oy)
termination_by m => (m.nodeCount, 0)
decreasing_by
  rw [Micro.nodeCount]
  exact Prod.Lex.left _ _ (by omega)

/-- updateSubsForOrigin is the sub micro loop of
Micro._update_absolute_positions: each sub micro receives set_origin of
the parent origin plus its own current origin. -/
def Micro.updateSubsForOrigin : List Micro → ℚ → ℚ → List Micro
  | [], _, _ => []
  | s :: rest, px, py =>
    Micro.update_absolute_positions
        (Micro.withOriginGrid s
          ((s.site_info.snap_to_grid (px + s.origin_x) (py + s.origin_y)).1)
          ((s.site_info.snap_to_grid (px + s.origin_x) (py + s.origin_y)).2))
      :: Micro.updateSubsForOrigin rest px py
termination_by l _ _ => (Micro.nodeCountList l, 1)
decreasing_by
  · cases s with
    | mk n2 ox2 oy2 d2 si2 cs2 hp2 gx2 gy2 subs2 =>
      rw [Micro.withOriginGrid, Micro.nodeCountList, Micro.nodeCount, Micro.nodeCount]
      rcases Nat.eq_zero_or_pos (Micro.nodeCountList rest) with h0 | h0
      · rw [h0, Nat.add_zero]
        exact Prod.Lex.right _ (by omega)
      · exact Prod.Lex.left _ _ (by omega)
  · cases s with
    | mk n2 ox2 oy2 d2 si2 cs2 hp2 gx2 gy2 subs2 =>
      rw [Micro.nodeCountList, Micro.nodeCount]
      exact Prod.Lex.left _ _ (by omega)
end

/-- set_origin models Micro.set_origin: snap the requested origin to the
grid, store it, refresh the grid cache, and push the update through the
whole subtree. -/
def Micro.set_origin (m : Micro) (x y : ℚ) : Micro :=
  Micro.update_absolute_positions
    (m.withOriginGrid ((m.site_info.snap_to_grid x y).1)
      ((m.site_info.snap_to_grid x y).2))

/-- set_origin_by_grid models Micro.set_origin_by_grid: convert the
lattice indices and delegate to set_origin. -/
def Micro.set_origin_by_grid (m : Micro) (gx gy : ℤ) : Micro :=
  m.set_origin (m.site_info.from_grid_coords gx gy).1
    (m.site_info.from_grid_coords gx gy).2

/-- move_by models Micro.move_by: snap the delta, add it to the stored
origin without snapping the sum, refresh the grid cache, and push the
update through the subtree. -/
def Micro.move_by (m : Micro) (dx dy : ℚ) : Micro :=
  Micro.update_absolute_positions
    (m.withOriginGrid (m.origin_x + (m.site_info.snap_to_grid dx dy).1)
      (m.origin_y + (m.site_info.snap_to_grid dx dy).2))

/-- move_by_grid models Micro.move_by_grid: scale the lattice delta by
the pitches and delegate to move_by. -/
def Micro.move_by_grid (m : Micro) (dgx dgy : ℤ) : Micro :=
  m.move_by (dgx * m.site_info.width) (dgy * m.site_info.height)

/-- add_cell models Micro.add_cell: clone the argument, give the clone
its absolute position against the current origin and the hierarchical
path, and append it to the owned list. -/
def Micro.add_cell (m : Micro) (cell : Cell) : Micro :=
  match m with
  | .mk n ox oy d si cs hp gx gy subs =>
    let cpy := ((cell.clone).set_absolute_position ox oy (some si)).set_hierarchical_path hp
    .mk n ox oy d si (cs ++ [cpy]) hp gx gy subs

/-- appendSub appends an already prepared sub micro to the owned list;
it is the final line of Micro.add_sub_micro. -/
def Micro.appendSub : Micro → Micro → Micro
  | .mk n ox oy d si cs hp gx gy subs, s => .mk n ox oy d si cs hp gx gy (subs ++ [s])

mutual
/-- cloneF models Micro.clone with explicit fuel (the source recursion is
clone calling add_sub_micro calling clone of the freshly cloned child):
build a new Micro with the same name unless a new one is given, the same
origin, description and a fresh SiteInfo of the same pitches, then
add_cell a clone of every owned cell and add_sub_micro a clone of every
owned sub micro, in order. -/
def Micro.cloneF : ℕ → Micro → Option String → Micro
  | 0, m, _ => m
  | Nat.succ k, .mk n ox oy d si cs _ _ _ subs, new_name =>
    let base := Micro.init (new_name.getD n) ox oy d ⟨si.width, si.height⟩
    let withCells := cs.foldl (fun acc c => acc.add_cell c.clone) base
    Micro.cloneSubsF k subs withCells

/-- cloneSubsF is the sub micro loop of Micro.clone: for each owned sub
micro, add_sub_micro of its clone. -/
def Micro.cloneSubsF : ℕ → List Micro → Micro → Micro
  | _, [], acc => acc
  | k, s :: rest, acc =>
    Micro.cloneSubsF k rest (Micro.addSubF k acc (Micro.cloneF k s none))

/-- addSubF models Micro.add_sub_micro with explicit fuel: clone the
argument, give the clone the hierarchical path of the parent, set its
origin to the parent origin plus its own origin (the incoming origin is
read as an offset relative to the parent), and append it.  The parent
back reference assignment of the source has no counterpart in this
functional tree. -/
def Micro.addSubF (k : ℕ) (self sub_micro : Micro) : Micro :=
  let cpy := Micro.cloneF k sub_micro none
  let cpy2 := cpy.set_hierarchical_path self.hierarchical_path
  let cpy3 := cpy2.set_origin (self.origin_x + cpy2.origin_x) (self.origin_y + cpy2.origin_y)
  self.appendSub cpy3
end

/-- clone models Micro.clone, handing depth many units of fuel to the
fueled recursion; the depth preservation theorems below show this never
runs out. -/
def Micro.clone (m : Micro) (new_name : Option String := none) : Micro :=
  Micro.cloneF m.depth m new_name

/-- add_sub_micro models Micro.add_sub_micro, handing the clone enough
fuel for the argument. -/
def Micro.add_sub_micro (m : Micro) (sub_micro : Micro) : Micro :=
  Micro.addSubF sub_micro.depth m sub_micro

mutual
/-- get_all_cells models Micro.get_all_cells: the owned cells, then the
cells of each sub micro, depth first, in insertion order. -/
def Micro.get_all_cells : Micro → List Cell
  | .mk _ _ _ _ _ cs _ _ _ subs => cs ++ Micro.getAllCellsList subs

/-- getAllCellsList concatenates get_all_cells over a list of micros. -/
def Micro.getAllCellsList : List Micro → List Cell
  | [] => []
  | s :: rest => s.get_all_cells ++ Micro.getAllCellsList rest
end

mutual
/-- get_all_sub_micros models Micro.get_all_sub_micros: each sub micro
followed by its own descendants, depth first. -/
def Micro.get_all_sub_micros : Micro → List Micro
  | .mk _ _ _ _ _ _ _ _ _ subs => Micro.getAllSubsList subs

/-- getAllSubsList is the loop of get_all_sub_micros. -/
def Micro.getAllSubsList : List Micro → List Micro
  | [] => []
  | s :: rest => s :: (s.get_all_sub_micros ++ Micro.getAllSubsList rest)
end

/-- calculate_bounding_box models Micro.calculate_bounding_box: the
componentwise minima and maxima of the cached cell bounding boxes over
all descendant cells, and the all zero box if there is no cell. -/
def Micro.calculate_bounding_box (m : Micro) : ℚ × ℚ × ℚ × ℚ :=
  match m.get_all_cells with
  | [] => (0, 0, 0, 0)
  | c :: rest =>
    (rest.foldl (fun a x => min a x.bbox_min_x) c.bbox_min_x,
     rest.foldl (fun a x => min a x.bbox_min_y) c.bbox_min_y,
     rest.foldl (fun a x => max a x.bbox_max_x) c.bbox_max_x,
     rest.foldl (fun a x => max a x.bbox_max_y) c.bbox_max_y)

/-- flipCellStep is the cell loop body of Micro.flip_horizontal: move the
cell to the mirrored relative position (the width is read from the cached
bbox) and flip its orientation tag. -/
def flipCellStep (w : ℚ) (si : SiteInfo) (c : Cell) : Cell :=
  (c.set_rel_position (w - c.x - (c.bbox_max_x - c.bbox_min_x)) c.y (some si)).flip_oritentation

/-- flipF models Micro.flip_horizontal with explicit fuel (the source
recursion passes through set_origin results): mirror every owned cell
about the own bounding box width, mirror and recursively flip every sub
micro, then refresh the grid cache and push the absolute positions (and
with them the row orientations) through the subtree. -/
def Micro.flipF : ℕ → Micro → Micro
  | 0, m => m
  | Nat.succ k, m =>
    match m with
    | .mk n ox oy d si cs hp _ _ subs =>
      let w := (m.calculate_bounding_box).2.2.1 - (m.calculate_bounding_box).1
      let cells2 := cs.map (flipCellStep w si)
      let subs2 := subs.map (fun s =>
        let sw := (s.calculate_bounding_box).2.2.1 - (s.calculate_bounding_box).1
        Micro.flipF k (s.set_origin (w - s.origin_x - sw) s.origin_y))
      Micro.update_absolute_positions
        (.mk n ox oy d si cells2 hp (si.to_grid_coords ox oy).1
          (si.to_grid_coords ox oy).2 subs2)

/-- flip_horizontal models Micro.flip_horizontal, handing depth many
units of fuel to the fueled recursion. -/
def Micro.flip_horizontal (m : Micro) : Micro :=
  Micro.flipF m.depth m

/-- MicroRecord models the dictionary produced by Micro.to_dict,
restricted to the keys that Micro._load_from_dict reads back (name,
origin, site_info, description, cells, sub_micros).  The source
additionally emits the grid caches, the hierarchical path and the
bounding box, which no loader reads; they are omitted here. -/
inductive MicroRecord : Type where
  | mk (name : String) (origin_x origin_y : ℚ) (site_width site_height : ℚ)
      (description : String) (cells : List CellRecord)
      (sub_micros : List MicroRecord) : MicroRecord
deriving Repr

/-- name projection of a MicroRecord. -/
def MicroRecord.name : MicroRecord → String
  | .mk n _ _ _ _ _ _ _ => n

/-- origin_x projection of a MicroRecord. -/
def MicroRecord.origin_x : MicroRecord → ℚ
  | .mk _ ox _ _ _ _ _ _ => ox

/-- origin_y projection of a MicroRecord. -/
def MicroRecord.origin_y : MicroRecord → ℚ
  | .mk _ _ oy _ _ _ _ _ => oy

/-- sub_micros projection of a MicroRecord. -/
def MicroRecord.sub_micros : MicroRecord → List MicroRecord
  | .mk _ _ _ _ _ _ _ subs => subs

mutual
/-- to_dict models Micro.to_dict restricted to the keys a loader reads
(see MicroRecord). -/
def Micro.to_dict : Micro → MicroRecord
  | .mk n ox oy d si cs _ _ _ subs =>
    .mk n ox oy si.width si.height d (cs.map Cell.to_dict) (Micro.toDictList subs)

/-- toDictList maps to_dict over the sub micros. -/
def Micro.toDictList : List Micro → List MicroRecord
  | [] => []
  | s :: rest => s.to_dict :: Micro.toDictList rest
end

mutual
/-- load_from_dict models the class method Micro._load_from_dict: build a
Micro from the primary record fields, add_cell a Cell built from each
cell record, then add_sub_micro each recursively loaded sub record.  The
same code is the body of Micro.load_from_file after the JSON parse. -/
def Micro.load_from_dict : MicroRecord → Micro
  | .mk n ox oy w h d cellRecs subRecs =>
    let m0 := Micro.init n ox oy d ⟨w, h⟩
    let m1 := cellRecs.foldl
      (fun acc r => acc.add_cell (Cell.init r.name r.rel_x r.rel_y r.orientation r.width r.height)) m0
    Micro.loadSubs m1 subRecs

/-- loadSubs is the sub micro loop of Micro._load_from_dict. -/
def Micro.loadSubs : Micro → List MicroRecord → Micro
  | m, [] => m
  | m, r :: rest => Micro.loadSubs (m.add_sub_micro (Micro.load_from_dict r)) rest
end

/-- PlaceCellEngine models the engine class: the registry of active
micros (a Python dict, modelled as an association list with the dict
insertion order) and the engine wide site info.  The file backed library
and the cached placement list are I/O facilities outside these claims and
are omitted. -/
structure PlaceCellEngine where
  active_micros : List (String × Micro)
  site_info : SiteInfo := {}

/-- lookupActive models the dict lookup active_micros[name]. -/
def PlaceCellEngine.lookupActive (e : PlaceCellEngine) (name : String) : Option Micro :=
  (e.active_micros.find? (fun p => p.1 = name)).map (fun p => p.2)

/-- updateActive models the in place mutation of the micro stored under
an existing name. -/
def updateActive : List (String × Micro) → String → Micro → List (String × Micro)
  | [], _, _ => []
  | (k, v) :: rest, n, nv =>
    if k = n then (k, nv) :: rest else (k, v) :: updateActive rest n nv

/-- place_micro models PlaceCellEngine.place_micro: raise if the name is
not an active micro, else set_origin on the stored micro. -/
def PlaceCellEngine.place_micro (e : PlaceCellEngine) (micro_name : String)
    (origin_x origin_y : ℚ) : Except String PlaceCellEngine :=
  match e.lookupActive micro_name with
  | none => .error ("Micro " ++ micro_name ++ " not found")
  | some m =>
    .ok { e with active_micros := updateActive e.active_micros micro_name (m.set_origin origin_x origin_y) }

/-- place_micro_by_grid models PlaceCellEngine.place_micro_by_grid. -/
def PlaceCellEngine.place_micro_by_grid (e : PlaceCellEngine) (micro_name : String)
    (gx gy : ℤ) : Except String PlaceCellEngine :=
  match e.lookupActive micro_name with
  | none => .error ("Micro " ++ micro_name ++ " not found")
  | some m =>
    .ok { e with active_micros := updateActive e.active_micros micro_name (m.set_origin_by_grid gx gy) }

/-- move_micro models PlaceCellEngine.move_micro. -/
def PlaceCellEngine.move_micro (e : PlaceCellEngine) (micro_name : String)
    (dx dy : ℚ) : Except String PlaceCellEngine :=
  match e.lookupActive micro_name with
  | none => .error ("Micro " ++ micro_name ++ " not found")
  | some m =>
    .ok { e with active_micros := updateActive e.active_micros micro_name (m.move_by dx dy) }

/-- move_micro_by_grid models PlaceCellEngine.move_micro_by_grid. -/
def PlaceCellEngine.move_micro_by_grid (e : PlaceCellEngine) (micro_name : String)
    (dgx dgy : ℤ) : Except String PlaceCellEngine :=
  match e.lookupActive micro_name with
  | none => .error ("Micro " ++ micro_name ++ " not found")
  | some m =>
    .ok { e with active_micros := updateActive e.active_micros micro_name (m.move_by_grid dgx dgy) }

/-- MicroOp enumerates the Micro mutators that the lifetime claims range
over. -/
inductive MicroOp : Type where
  | setOrigin (x y : ℚ) : MicroOp
  | setOriginByGrid (gx gy : ℤ) : MicroOp
  | moveBy (dx dy : ℚ) : MicroOp
  | moveByGrid (dgx dgy : ℤ) : MicroOp
  | addCell (c : Cell) : MicroOp
  | addSubMicro (s : Micro) : MicroOp

/-- applyOp performs one MicroOp on a tree, delegating to the modelled
method. -/
def Micro.applyOp (m : Micro) : MicroOp → Micro
  | .setOrigin x y => m.set_origin x y
  | .setOriginByGrid gx gy => m.set_origin_by_grid gx gy
  | .moveBy dx dy => m.move_by dx dy
  | .moveByGrid dgx dgy => m.move_by_grid dgx dgy
  | .addCell c => m.add_cell c
  | .addSubMicro s => m.add_sub_micro s

/-- applyOps performs a sequence of MicroOps, first element first. -/
def Micro.applyOps (m : Micro) (ops : List MicroOp) : Micro :=
  ops.foldl Micro.applyOp m

mutual
/-- cellsConsistent states invariant (b) of the specification at every
node of the tree: each owned cell caches absolute position equal to the
origin of its owning Micro plus its own stored position. -/
def Micro.cellsConsistent : Micro → Prop
  | .mk _ ox oy _ _ cs _ _ _ subs =>
    (∀ c ∈ cs, c.absolute_x = ox + c.x ∧ c.absolute_y = oy + c.y) ∧
      Micro.cellsConsistentList subs

/-- cellsConsistentList states cellsConsistent for every member. -/
def Micro.cellsConsistentList : List Micro → Prop
  | [] => True
  | s :: rest => s.cellsConsistent ∧ Micro.cellsConsistentList rest
end

/-- isLatticeOf states that a coordinate is an integer multiple of a
pitch. -/
def isLatticeOf (pitch v : ℚ) : Prop := ∃ n : ℤ, v = n * pitch

/-- originOnLattice states invariant (a) of the specification: the origin
of the Micro is a lattice point of its grid. -/
def Micro.originOnLattice (m : Micro) : Prop :=
  isLatticeOf m.site_info.width m.origin_x ∧ isLatticeOf m.site_info.height m.origin_y

/-- rowParityOk states the row parity invariant for one cell: on an even
absolute lattice row the orientation is FS or S, on an odd row it is N or
FN. -/
def rowParityOk (c : Cell) : Prop :=
  if pyRound (c.absolute_y / c.site_info.height) % 2 = 0 then
    c.orientation = .FS ∨ c.orientation = .S
  else
    c.orientation = .N ∨ c.orientation = .FN


/-- cexSubMicro is a one cell micro at origin 0.14 used by the
counterexamples: attached to a parent it keeps an absolute origin. -/
def cexSubMicro : Micro := (Micro.init "B" (7/50) 0).add_cell (Cell.init "c" 0 0)

/-- cexTree is a root at origin 0.14 holding cexSubMicro; after the
attach the sub micro origin is the absolute 0.28. -/
def cexTree : Micro := (Micro.init "R" (7/50) 0).add_sub_micro cexSubMicro

/-- cexOffMicro is a micro constructed with the non lattice origin 0.07
(half a pitch): the constructor stores it unsnapped. -/
def cexOffMicro : Micro := Micro.init "A" (7/100) 0

/-- cexEngine is a one entry registry used by the engine claims. -/
def cexEngine : PlaceCellEngine := { active_micros := [("A", Micro.init "A" 0 0)] }

/-- mirrorPartner is the mirror pair map of the specification: N with FN
and S with FS; it is the table flip_oritentation applies. -/
def mirrorPartner : Orientation → Orientation
  | .N => .FN
  | .FN => .N
  | .S => .FS
  | .FS => .S

/-- c7tree is the flip scenario container: two cells of width one half at
relative x 0 and 1, with chosen orientations. -/
def c7tree (o1 o2 : Orientation) : Micro :=
  ((Micro.init "F" 0 0).add_cell (Cell.init "A" 0 0 o1 (1/2) (9/10))).add_cell
    (Cell.init "B" 1 0 o2 (1/2) (9/10))

/-! Theorems.  First the evaluation lemmas for pyRound, then supporting
preservation lemmas for the Micro operations, then one theorem per claim
with its witnesses and counterexamples. -/

theorem pyRound_intCast (n : ℤ) : pyRound (n : ℚ) = n := by
  unfold pyRound
  rw [Int.fract_intCast]
  norm_num

theorem pyRound_eq_int (q : ℚ) (n : ℤ) (h : q = (n : ℚ)) : pyRound q = n := by
  rw [h, pyRound_intCast]

theorem pyRound_lo (q : ℚ) (n : ℤ) (h0 : (n : ℚ) ≤ q) (h1 : q < (n : ℚ) + 1/2) :
    pyRound q = n := by
  have hf : ⌊q⌋ = n := Int.floor_eq_iff.mpr ⟨h0, by linarith⟩
  have hfr : Int.fract q < 1/2 := by rw [Int.fract, hf]; linarith
  unfold pyRound
  rw [if_pos hfr, hf]

theorem pyRound_hi (q : ℚ) (n : ℤ) (h0 : (n : ℚ) + 1/2 < q) (h1 : q < (n : ℚ) + 1) :
    pyRound q = n + 1 := by
  have hf : ⌊q⌋ = n := Int.floor_eq_iff.mpr ⟨by linarith, by linarith⟩
  have hfr : 1/2 < Int.fract q := by rw [Int.fract, hf]; linarith
  unfold pyRound
  rw [if_neg (by linarith), if_pos hfr, hf]

theorem pyRound_half_even (n : ℤ) (h : n % 2 = 0) : pyRound ((n : ℚ) + 1/2) = n := by
  have hf : ⌊(n : ℚ) + 1/2⌋ = n := Int.floor_eq_iff.mpr ⟨by linarith, by linarith⟩
  have hfr : Int.fract ((n : ℚ) + 1/2) = 1/2 := by rw [Int.fract, hf]; ring
  unfold pyRound
  rw [hfr, if_neg (by norm_num), if_neg (by norm_num), hf, if_pos h]

/-- C8: for every grid and every pair of rationals, snapping twice equals
snapping once: the snapped point is an exact lattice multiple on each
axis, and rounding an exact multiple reproduces it. -/
theorem C8_snap_to_grid_idempotent (si : SiteInfo) (x y : ℚ) :
    si.snap_to_grid (si.snap_to_grid x y).1 (si.snap_to_grid x y).2 = si.snap_to_grid x y := by
  unfold SiteInfo.snap_to_grid
  dsimp only
  rw [Prod.mk.injEq]
  constructor
  · by_cases hw : si.width = 0
    · rw [hw, mul_zero, mul_zero]
    · rw [mul_div_cancel_right₀ _ hw, pyRound_intCast]
  · by_cases hh : si.height = 0
    · rw [hh, mul_zero, mul_zero]
    · rw [mul_div_cancel_right₀ _ hh, pyRound_intCast]


theorem Cell.sap_site (c : Cell) (ox oy : ℚ) (si : SiteInfo) :
    (c.set_absolute_position ox oy (some si)).site_info = si := rfl

theorem Cell.sap_abs_x (c : Cell) (ox oy : ℚ) (si : SiteInfo) :
    (c.set_absolute_position ox oy (some si)).absolute_x = ox + c.x := rfl

theorem Cell.sap_abs_y (c : Cell) (ox oy : ℚ) (si : SiteInfo) :
    (c.set_absolute_position ox oy (some si)).absolute_y = oy + c.y := rfl

theorem Cell.sap_orient (c : Cell) (ox oy : ℚ) (si : SiteInfo) :
    (c.set_absolute_position ox oy (some si)).orientation = c.orientation := rfl

theorem Cell.sap_x (c : Cell) (ox oy : ℚ) (si : SiteInfo) :
    (c.set_absolute_position ox oy (some si)).x = c.x := rfl

theorem Cell.sap_y (c : Cell) (ox oy : ℚ) (si : SiteInfo) :
    (c.set_absolute_position ox oy (some si)).y = c.y := rfl

theorem Cell.setOrient_abs_y (c : Cell) (o : Orientation) :
    (c.set_orientation o).absolute_y = c.absolute_y := rfl

theorem Cell.setOrient_site (c : Cell) (o : Orientation) :
    (c.set_orientation o).site_info = c.site_info := rfl

theorem Cell.setOrient_orient (c : Cell) (o : Orientation) :
    (c.set_orientation o).orientation = o := rfl

/-- C2 (amended): get_orientation_for_row with row index j equal to the
Python round of y over the row pitch classifies the current orientation
into group L = {X-mirrored (FS), canonical (N)} versus group R =
{Y-mirrored (FN), 180-rotated (S)}; for group L it returns FS on even j
and N on odd j, for group R it returns S on even j and FN on odd j. -/
theorem C2_row_orientation_groups (c : Cell) (y : ℚ) :
    ((c.orientation = .FS ∨ c.orientation = .N) →
      ((pyRound (y / c.site_info.height) % 2 = 0 → c.get_orientation_for_row y = .FS) ∧
        (pyRound (y / c.site_info.height) % 2 ≠ 0 → c.get_orientation_for_row y = .N))) ∧
    ((c.orientation = .FN ∨ c.orientation = .S) →
      ((pyRound (y / c.site_info.height) % 2 = 0 → c.get_orientation_for_row y = .S) ∧
        (pyRound (y / c.site_info.height) % 2 ≠ 0 → c.get_orientation_for_row y = .FN))) := by
  unfold Cell.get_orientation_for_row
  constructor
  · intro hL
    constructor
    · intro hj
      rw [if_pos hL, if_pos hj]
    · intro hj
      rw [if_pos hL, if_neg hj]
  · intro hR
    have hL : ¬(c.orientation = .FS ∨ c.orientation = .N) := by
      rcases hR with h | h <;> rw [h] <;> rintro (h2 | h2) <;> exact Orientation.noConfusion h2
    constructor
    · intro hj
      rw [if_neg hL, if_pos hj]
    · intro hj
      rw [if_neg hL, if_neg hj]

/-- C2 witness: a concrete FS cell on the even row 0 receives FS, and a
concrete FN cell on the odd row 1 receives FN, both read off from the
amended table. -/
theorem C2_row_orientation_groups_witness :
    (Cell.init "a" 0 0 .FS).get_orientation_for_row 0 = .FS ∧
      (Cell.init "b" 0 0 .FN).get_orientation_for_row (9/10) = .FN := by
  have e0 : pyRound ((0 : ℚ) / (Cell.init "a" 0 0 .FS).site_info.height) = 0 :=
    pyRound_eq_int _ 0 (by norm_num [Cell.init, Cell.update_bbox, Cell.update_grid_coordinates])
  have e1 : pyRound ((9/10 : ℚ) / (Cell.init "b" 0 0 .FN).site_info.height) = 1 :=
    pyRound_eq_int _ 1 (by norm_num [Cell.init, Cell.update_bbox, Cell.update_grid_coordinates])
  constructor
  · exact ((C2_row_orientation_groups (Cell.init "a" 0 0 .FS) 0).1 (Or.inl rfl)).1
      (by rw [e0]; decide)
  · exact ((C2_row_orientation_groups (Cell.init "b" 0 0 .FN) (9/10)).2 (Or.inl rfl)).2
      (by rw [e1]; decide)

/-- C2 counterexample: the claim puts the Y-mirrored orientation FN into
group L and predicts FS on an even row; the code puts FN into the right
group and returns S there.  A concrete FN cell on row 0 comes back S, not
FS. -/
theorem C2_counterexample :
    (Cell.init "c" 0 0 .FN).get_orientation_for_row 0 = .S ∧ Orientation.S ≠ Orientation.FS := by
  have e0 : pyRound ((0 : ℚ) / (Cell.init "c" 0 0 .FN).site_info.height) = 0 :=
    pyRound_eq_int _ 0 (by norm_num [Cell.init, Cell.update_bbox, Cell.update_grid_coordinates])
  have hgroup : ¬((Cell.init "c" 0 0 .FN).orientation = .FS ∨
      (Cell.init "c" 0 0 .FN).orientation = .N) := by
    rw [show (Cell.init "c" 0 0 .FN).orientation = .FN from rfl]
    rintro (h | h) <;> exact Orientation.noConfusion h
  have hpar : pyRound ((0 : ℚ) / (Cell.init "c" 0 0 .FN).site_info.height) % 2 = 0 := by
    rw [e0]
    decide
  constructor
  · unfold Cell.get_orientation_for_row
    rw [if_neg hgroup, if_pos hpar]
  · exact fun h => Orientation.noConfusion h

theorem rowParityOk_updCell (ox oy : ℚ) (si : SiteInfo) (c : Cell) :
    rowParityOk (updCellForOrigin ox oy si c) := by
  unfold updCellForOrigin rowParityOk
  rw [Cell.setOrient_abs_y, Cell.setOrient_site, Cell.setOrient_orient]
  unfold Cell.get_orientation_for_row
  by_cases hg : pyRound ((c.set_absolute_position ox oy (some si)).absolute_y /
      (c.set_absolute_position ox oy (some si)).site_info.height) % 2 = 0
  · rw [if_pos hg]
    by_cases ho : (c.set_absolute_position ox oy (some si)).orientation = .FS ∨
        (c.set_absolute_position ox oy (some si)).orientation = .N
    · rw [if_pos ho, if_pos hg]
      exact Or.inl rfl
    · rw [if_neg ho, if_pos hg]
      exact Or.inr rfl
  · rw [if_neg hg]
    by_cases ho : (c.set_absolute_position ox oy (some si)).orientation = .FS ∨
        (c.set_absolute_position ox oy (some si)).orientation = .N
    · rw [if_pos ho, if_neg hg]
      exact Or.inl rfl
    · rw [if_neg ho, if_neg hg]
      exact Or.inr rfl

theorem Micro.nodeCount_pos (m : Micro) : 1 ≤ m.nodeCount := by
  cases m
  rw [Micro.nodeCount]
  omega

theorem Micro.nodeCount_withOriginGrid (m : Micro) (x y : ℚ) :
    (m.withOriginGrid x y).nodeCount = m.nodeCount := by
  cases m
  rw [Micro.withOriginGrid, Micro.nodeCount, Micro.nodeCount]

theorem updateAbs_rowParity_aux (N : ℕ) :
    ∀ m : Micro, m.nodeCount ≤ N →
      ∀ c ∈ m.update_absolute_positions.get_all_cells, rowParityOk c := by
  induction N with
  | zero =>
    intro m hm c _
    exact absurd hm (by have := m.nodeCount_pos; omega)
  | succ N ih =>
    have hlist : ∀ (l : List Micro) (px py : ℚ), Micro.nodeCountList l ≤ N →
        ∀ c ∈ Micro.getAllCellsList (Micro.updateSubsForOrigin l px py), rowParityOk c := by
      intro l
      induction l with
      | nil =>
        intro px py _ c hc
        rw [Micro.updateSubsForOrigin, Micro.getAllCellsList] at hc
        exact absurd hc (List.not_mem_nil c)
      | cons s rest ihl =>
        intro px py hb c hc
        rw [Micro.nodeCountList] at hb
        have hs1 := s.nodeCount_pos
        rw [Micro.updateSubsForOrigin, Micro.getAllCellsList] at hc
        rcases List.mem_append.mp hc with hc | hc
        · refine ih _ ?_ c hc
          rw [Micro.nodeCount_withOriginGrid]
          omega
        · exact ihl px py (by omega) c hc
    intro m hm c hc
    cases m with
    | mk n ox oy d si cs hp gx gy subs =>
      rw [Micro.nodeCount] at hm
      rw [Micro.update_absolute_positions, Micro.get_all_cells] at hc
      rcases List.mem_append.mp hc with hc | hc
      · obtain ⟨c0, _, rfl⟩ := List.mem_map.mp hc
        exact rowParityOk_updCell ox oy si c0
      · exact hlist subs ox oy (by omega) c hc

/-- C10: immediately after any set_origin (and so after set_origin_by_grid
and after the update a parent origin change pushes into the subtree) and
after any move_by (and so after move_by_grid), every cell of the whole
subtree, the directly owned ones included, satisfies the row parity
invariant: on an even absolute lattice row its orientation is FS or S, on
an odd row it is N or FN. -/
theorem C10_row_parity_after_reposition (m : Micro) (x y dx dy : ℚ) :
    (∀ c ∈ (m.set_origin x y).get_all_cells, rowParityOk c) ∧
      (∀ c ∈ (m.move_by dx dy).get_all_cells, rowParityOk c) := by
  constructor
  · intro c hc
    unfold Micro.set_origin at hc
    exact updateAbs_rowParity_aux _ _ le_rfl c hc
  · intro c hc
    unfold Micro.move_by at hc
    exact updateAbs_rowParity_aux _ _ le_rfl c hc

/-- witnessMicroC10 is a concrete one cell micro used to witness C10. -/
def witnessMicroC10 : Micro := (Micro.init "M" 0 0).add_cell (Cell.init "c" 0 0)

/-- C10 witness: the single cell of a concrete repositioned micro
satisfies the row parity invariant, read off through the main theorem. -/
theorem C10_row_parity_witness :
    rowParityOk (((witnessMicroC10.set_origin 0 0).get_all_cells).headI) := by
  apply (C10_row_parity_after_reposition witnessMicroC10 0 0 0 0).1
  simp only [witnessMicroC10, Micro.init, Micro.add_cell, Micro.set_origin,
    Micro.withOriginGrid, Micro.update_absolute_positions, Micro.updateSubsForOrigin,
    Micro.get_all_cells, Micro.getAllCellsList, List.map, List.nil_append, List.append_nil]
  simp

theorem updCell_abs_x (ox oy : ℚ) (si : SiteInfo) (c : Cell) :
    (updCellForOrigin ox oy si c).absolute_x = ox + c.x := rfl

theorem updCell_abs_y (ox oy : ℚ) (si : SiteInfo) (c : Cell) :
    (updCellForOrigin ox oy si c).absolute_y = oy + c.y := rfl

theorem updCell_x (ox oy : ℚ) (si : SiteInfo) (c : Cell) :
    (updCellForOrigin ox oy si c).x = c.x := rfl

theorem updCell_y (ox oy : ℚ) (si : SiteInfo) (c : Cell) :
    (updCellForOrigin ox oy si c).y = c.y := rfl

theorem Cell.shp_abs_x (c : Cell) (p : String) :
    (c.set_hierarchical_path p).absolute_x = c.absolute_x := by
  unfold Cell.set_hierarchical_path
  split <;> rfl

theorem Cell.shp_abs_y (c : Cell) (p : String) :
    (c.set_hierarchical_path p).absolute_y = c.absolute_y := by
  unfold Cell.set_hierarchical_path
  split <;> rfl

theorem Cell.shp_x (c : Cell) (p : String) :
    (c.set_hierarchical_path p).x = c.x := by
  unfold Cell.set_hierarchical_path
  split <;> rfl

theorem Cell.shp_y (c : Cell) (p : String) :
    (c.set_hierarchical_path p).y = c.y := by
  unfold Cell.set_hierarchical_path
  split <;> rfl

theorem updateAbs_consistent_aux (N : ℕ) :
    ∀ m : Micro, m.nodeCount ≤ N → (m.update_absolute_positions).cellsConsistent := by
  induction N with
  | zero =>
    intro m hm
    exact absurd hm (by have := m.nodeCount_pos; omega)
  | succ N ih =>
    have hlist : ∀ (l : List Micro) (px py : ℚ), Micro.nodeCountList l ≤ N →
        Micro.cellsConsistentList (Micro.updateSubsForOrigin l px py) := by
      intro l
      induction l with
      | nil =>
        intro px py _
        rw [Micro.updateSubsForOrigin, Micro.cellsConsistentList]
        trivial
      | cons s rest ihl =>
        intro px py hb
        rw [Micro.nodeCountList] at hb
        have hs1 := s.nodeCount_pos
        rw [Micro.updateSubsForOrigin, Micro.cellsConsistentList]
        refine ⟨ih _ ?_, ihl px py (by omega)⟩
        rw [Micro.nodeCount_withOriginGrid]
        omega
    intro m hm
    cases m with
    | mk n ox oy d si cs hp gx gy subs =>
      rw [Micro.nodeCount] at hm
      rw [Micro.update_absolute_positions, Micro.cellsConsistent]
      constructor
      · intro c hc
        obtain ⟨c0, _, rfl⟩ := List.mem_map.mp hc
        exact ⟨by rw [updCell_abs_x, updCell_x], by rw [updCell_abs_y, updCell_y]⟩
      · exact hlist subs ox oy (by omega)

theorem set_origin_consistent (m : Micro) (x y : ℚ) : (m.set_origin x y).cellsConsistent := by
  unfold Micro.set_origin
  exact updateAbs_consistent_aux _ _ le_rfl

theorem move_by_consistent (m : Micro) (dx dy : ℚ) : (m.move_by dx dy).cellsConsistent := by
  unfold Micro.move_by
  exact updateAbs_consistent_aux _ _ le_rfl

theorem cellsConsistentList_append (l1 l2 : List Micro)
    (h1 : Micro.cellsConsistentList l1) (h2 : Micro.cellsConsistentList l2) :
    Micro.cellsConsistentList (l1 ++ l2) := by
  induction l1 with
  | nil => rw [List.nil_append]; exact h2
  | cons s rest ih =>
    rw [Micro.cellsConsistentList] at h1
    rw [List.cons_append, Micro.cellsConsistentList]
    exact ⟨h1.1, ih h1.2⟩

theorem add_cell_consistent (m : Micro) (cell : Cell) (h : m.cellsConsistent) :
    (m.add_cell cell).cellsConsistent := by
  cases m with
  | mk n ox oy d si cs hp gx gy subs =>
    rw [Micro.cellsConsistent] at h
    rw [Micro.add_cell, Micro.cellsConsistent]
    refine ⟨?_, h.2⟩
    intro c hc
    rcases List.mem_append.mp hc with hc | hc
    · exact h.1 c hc
    · rcases List.mem_singleton.mp hc with rfl
      constructor
      · rw [Cell.shp_abs_x, Cell.shp_x, Cell.sap_abs_x, Cell.sap_x]
      · rw [Cell.shp_abs_y, Cell.shp_y, Cell.sap_abs_y, Cell.sap_y]

theorem appendSub_consistent (m s : Micro) (hm : m.cellsConsistent) (hs : s.cellsConsistent) :
    (m.appendSub s).cellsConsistent := by
  cases m with
  | mk n ox oy d si cs hp gx gy subs =>
    rw [Micro.cellsConsistent] at hm
    rw [Micro.appendSub, Micro.cellsConsistent]
    refine ⟨hm.1, cellsConsistentList_append _ _ hm.2 ?_⟩
    rw [Micro.cellsConsistentList, Micro.cellsConsistentList]
    exact ⟨hs, trivial⟩

theorem addSubF_consistent (k : ℕ) (m s : Micro) (h : m.cellsConsistent) :
    (Micro.addSubF k m s).cellsConsistent := by
  rw [Micro.addSubF]
  exact appendSub_consistent _ _ h (set_origin_consistent _ _ _)

theorem add_sub_micro_consistent (m s : Micro) (h : m.cellsConsistent) :
    (m.add_sub_micro s).cellsConsistent := by
  unfold Micro.add_sub_micro
  exact addSubF_consistent _ _ _ h

theorem init_consistent (name : String) (ox oy : ℚ) (d : String) (si : SiteInfo) :
    (Micro.init name ox oy d si).cellsConsistent := by
  rw [Micro.init, Micro.cellsConsistent]
  exact ⟨fun c hc => absurd hc (List.not_mem_nil c), trivial⟩

theorem applyOp_consistent (m : Micro) (op : MicroOp) (h : m.cellsConsistent) :
    (m.applyOp op).cellsConsistent := by
  cases op with
  | setOrigin x y => exact set_origin_consistent m x y
  | setOriginByGrid gx gy =>
    rw [Micro.applyOp, Micro.set_origin_by_grid]
    exact set_origin_consistent m _ _
  | moveBy dx dy => exact move_by_consistent m dx dy
  | moveByGrid dgx dgy =>
    rw [Micro.applyOp, Micro.move_by_grid]
    exact move_by_consistent m _ _
  | addCell c => exact add_cell_consistent m c h
  | addSubMicro s => exact add_sub_micro_consistent m s h

theorem applyOps_consistent (m : Micro) (ops : List MicroOp) (h : m.cellsConsistent) :
    (m.applyOps ops).cellsConsistent := by
  induction ops generalizing m with
  | nil => exact h
  | cons op rest ih =>
    rw [Micro.applyOps, List.foldl_cons]
    exact ih _ (applyOp_consistent m op h)

/-- C1 (amended): starting from a freshly constructed Micro, after any
sequence of set_origin, set_origin_by_grid, move_by, move_by_grid,
add_cell and add_sub_micro calls, every cell of every node of the tree
caches an absolute position equal to the origin of its immediate owning
Micro plus the cell stored position.  The sum over all ancestors of the
original claim does not hold, because a sub micro origin is itself stored
as an absolute coordinate (see the C1 counterexample). -/
theorem C1_owner_origin_invariant (name : String) (ox oy : ℚ) (d : String)
    (si : SiteInfo) (ops : List MicroOp) :
    ((Micro.init name ox oy d si).applyOps ops).cellsConsistent :=
  applyOps_consistent _ ops (init_consistent name ox oy d si)

/-- C1 counterexample: in the concrete two level tree cexTree (root at
0.14 with an attached one cell sub micro that arrived with origin 0.14),
the leaf cell caches absolute x = 0.28, which equals the owner origin
plus the stored x, while the sum of ALL ancestor origins plus the stored
x is 0.14 + 0.28 + 0 = 0.42: the claim as stated fails on this tree. -/
theorem C1_counterexample :
    cexTree.sub_micros.headI.cells.headI.absolute_x = 7/25 ∧
      cexTree.origin_x + cexTree.sub_micros.headI.origin_x
          + cexTree.sub_micros.headI.cells.headI.x = 21/50 ∧
      ((7 : ℚ)/25) ≠ 21/50 := by
  have p0 : pyRound (0 : ℚ) = 0 := pyRound_eq_int _ 0 (by norm_num)
  have p1 : pyRound (1 : ℚ) = 1 := pyRound_eq_int _ 1 (by norm_num)
  have p2 : pyRound (2 : ℚ) = 2 := pyRound_eq_int _ 2 (by norm_num)
  have sB : (("B" : String) = "") = False := eq_false (by decide)
  have sR : (("R" : String) = "") = False := eq_false (by decide)
  have sRB : (("R" ++ "/" ++ "B" : String) = "") = False := eq_false (by decide)
  refine ⟨?_, ?_, by norm_num⟩ <;>
    norm_num [cexTree, cexSubMicro, Micro.init, Micro.add_cell, Micro.add_sub_micro,
      Micro.addSubF, Micro.cloneF, Micro.cloneSubsF, Micro.depth, Micro.depthList,
      Micro.appendSub, Micro.set_hierarchical_path, Micro.setPathList, Micro.set_origin,
      Micro.withOriginGrid, Micro.update_absolute_positions, Micro.updateSubsForOrigin,
      updCellForOrigin, Cell.init, Cell.clone, Cell.update_grid_coordinates,
      Cell.update_bbox, Cell.set_absolute_position, Cell.set_hierarchical_path,
      Cell.set_orientation, Cell.get_orientation_for_row, SiteInfo.snap_to_grid,
      SiteInfo.to_grid_coords, Micro.origin_x, Micro.sub_micros, Micro.cells,
      Micro.hierarchical_path, Micro.origin_y, Micro.site_info, Micro.name,
      Micro.grid_x, Micro.grid_y, List.foldl_cons, List.foldl_nil,
      List.headI, p0, p1, p2, sB, sR, sRB]

theorem Micro.update_origin_x (m : Micro) :
    m.update_absolute_positions.origin_x = m.origin_x := by
  cases m
  rw [Micro.update_absolute_positions, Micro.origin_x, Micro.origin_x]

theorem Micro.update_origin_y (m : Micro) :
    m.update_absolute_positions.origin_y = m.origin_y := by
  cases m
  rw [Micro.update_absolute_positions, Micro.origin_y, Micro.origin_y]

theorem Micro.update_site (m : Micro) :
    m.update_absolute_positions.site_info = m.site_info := by
  cases m
  rw [Micro.update_absolute_positions, Micro.site_info, Micro.site_info]

theorem Micro.withOriginGrid_origin_x (m : Micro) (x y : ℚ) :
    (m.withOriginGrid x y).origin_x = x := by
  cases m
  rw [Micro.withOriginGrid, Micro.origin_x]

theorem Micro.withOriginGrid_origin_y (m : Micro) (x y : ℚ) :
    (m.withOriginGrid x y).origin_y = y := by
  cases m
  rw [Micro.withOriginGrid, Micro.origin_y]

theorem Micro.withOriginGrid_site (m : Micro) (x y : ℚ) :
    (m.withOriginGrid x y).site_info = m.site_info := by
  cases m
  rw [Micro.withOriginGrid, Micro.site_info, Micro.site_info]

theorem Micro.set_origin_origin_x (m : Micro) (x y : ℚ) :
    (m.set_origin x y).origin_x = (m.site_info.snap_to_grid x y).1 := by
  unfold Micro.set_origin
  rw [Micro.update_origin_x, Micro.withOriginGrid_origin_x]

theorem Micro.set_origin_origin_y (m : Micro) (x y : ℚ) :
    (m.set_origin x y).origin_y = (m.site_info.snap_to_grid x y).2 := by
  unfold Micro.set_origin
  rw [Micro.update_origin_y, Micro.withOriginGrid_origin_y]

theorem Micro.set_origin_site (m : Micro) (x y : ℚ) :
    (m.set_origin x y).site_info = m.site_info := by
  unfold Micro.set_origin
  rw [Micro.update_site, Micro.withOriginGrid_site]

theorem Micro.move_by_origin_x (m : Micro) (dx dy : ℚ) :
    (m.move_by dx dy).origin_x = m.origin_x + (m.site_info.snap_to_grid dx dy).1 := by
  unfold Micro.move_by
  rw [Micro.update_origin_x, Micro.withOriginGrid_origin_x]

theorem Micro.move_by_origin_y (m : Micro) (dx dy : ℚ) :
    (m.move_by dx dy).origin_y = m.origin_y + (m.site_info.snap_to_grid dx dy).2 := by
  unfold Micro.move_by
  rw [Micro.update_origin_y, Micro.withOriginGrid_origin_y]

theorem Micro.move_by_site (m : Micro) (dx dy : ℚ) :
    (m.move_by dx dy).site_info = m.site_info := by
  unfold Micro.move_by
  rw [Micro.update_site, Micro.withOriginGrid_site]

theorem Micro.add_cell_origin_x (m : Micro) (c : Cell) :
    (m.add_cell c).origin_x = m.origin_x := by
  cases m
  rw [Micro.add_cell, Micro.origin_x, Micro.origin_x]

theorem Micro.add_cell_origin_y (m : Micro) (c : Cell) :
    (m.add_cell c).origin_y = m.origin_y := by
  cases m
  rw [Micro.add_cell, Micro.origin_y, Micro.origin_y]

theorem Micro.add_cell_site (m : Micro) (c : Cell) :
    (m.add_cell c).site_info = m.site_info := by
  cases m
  rw [Micro.add_cell, Micro.site_info, Micro.site_info]

theorem Micro.appendSub_origin_x (m s : Micro) : (m.appendSub s).origin_x = m.origin_x := by
  cases m
  rw [Micro.appendSub, Micro.origin_x, Micro.origin_x]

theorem Micro.appendSub_origin_y (m s : Micro) : (m.appendSub s).origin_y = m.origin_y := by
  cases m
  rw [Micro.appendSub, Micro.origin_y, Micro.origin_y]

theorem Micro.appendSub_site (m s : Micro) : (m.appendSub s).site_info = m.site_info := by
  cases m
  rw [Micro.appendSub, Micro.site_info, Micro.site_info]

theorem Micro.add_sub_micro_origin_x (m s : Micro) :
    (m.add_sub_micro s).origin_x = m.origin_x := by
  unfold Micro.add_sub_micro Micro.addSubF
  rw [Micro.appendSub_origin_x]

theorem Micro.add_sub_micro_origin_y (m s : Micro) :
    (m.add_sub_micro s).origin_y = m.origin_y := by
  unfold Micro.add_sub_micro Micro.addSubF
  rw [Micro.appendSub_origin_y]

theorem Micro.add_sub_micro_site (m s : Micro) :
    (m.add_sub_micro s).site_info = m.site_info := by
  unfold Micro.add_sub_micro Micro.addSubF
  rw [Micro.appendSub_site]

theorem snap_fst_lattice (si : SiteInfo) (x y : ℚ) :
    isLatticeOf si.width (si.snap_to_grid x y).1 :=
  ⟨pyRound (x / si.width), rfl⟩

theorem snap_snd_lattice (si : SiteInfo) (x y : ℚ) :
    isLatticeOf si.height (si.snap_to_grid x y).2 :=
  ⟨pyRound (y / si.height), rfl⟩

theorem isLatticeOf_add (p a b : ℚ) (ha : isLatticeOf p a) (hb : isLatticeOf p b) :
    isLatticeOf p (a + b) := by
  obtain ⟨i, rfl⟩ := ha
  obtain ⟨j, rfl⟩ := hb
  exact ⟨i + j, by push_cast; ring⟩

theorem snap_fixes_lattice (si : SiteInfo) (x y : ℚ)
    (hx : isLatticeOf si.width x) (hy : isLatticeOf si.height y) :
    si.snap_to_grid x y = (x, y) := by
  obtain ⟨i, rfl⟩ := hx
  obtain ⟨j, rfl⟩ := hy
  unfold SiteInfo.snap_to_grid
  rw [Prod.mk.injEq]
  constructor
  · by_cases hw : si.width = 0
    · rw [hw, mul_zero, mul_zero]
    · rw [mul_div_cancel_right₀ _ hw, pyRound_intCast]
  · by_cases hh : si.height = 0
    · rw [hh, mul_zero, mul_zero]
    · rw [mul_div_cancel_right₀ _ hh, pyRound_intCast]

theorem set_origin_lattice (m : Micro) (x y : ℚ) : (m.set_origin x y).originOnLattice := by
  unfold Micro.originOnLattice
  rw [Micro.set_origin_origin_x, Micro.set_origin_origin_y, Micro.set_origin_site]
  exact ⟨snap_fst_lattice m.site_info x y, snap_snd_lattice m.site_info x y⟩

theorem move_by_lattice (m : Micro) (dx dy : ℚ) (h : m.originOnLattice) :
    (m.move_by dx dy).originOnLattice := by
  unfold Micro.originOnLattice at h ⊢
  rw [Micro.move_by_origin_x, Micro.move_by_origin_y, Micro.move_by_site]
  exact ⟨isLatticeOf_add _ _ _ h.1 (snap_fst_lattice m.site_info dx dy),
    isLatticeOf_add _ _ _ h.2 (snap_snd_lattice m.site_info dx dy)⟩

theorem applyOp_lattice (m : Micro) (op : MicroOp) (h : m.originOnLattice) :
    (m.applyOp op).originOnLattice := by
  cases op with
  | setOrigin x y => exact set_origin_lattice m x y
  | setOriginByGrid gx gy =>
    rw [Micro.applyOp, Micro.set_origin_by_grid]
    exact set_origin_lattice m _ _
  | moveBy dx dy => exact move_by_lattice m dx dy h
  | moveByGrid dgx dgy =>
    rw [Micro.applyOp, Micro.move_by_grid]
    exact move_by_lattice m _ _ h
  | addCell c =>
    unfold Micro.originOnLattice at h ⊢
    rw [Micro.applyOp, Micro.add_cell_origin_x, Micro.add_cell_origin_y,
      Micro.add_cell_site]
    exact h
  | addSubMicro s =>
    unfold Micro.originOnLattice at h ⊢
    rw [Micro.applyOp, Micro.add_sub_micro_origin_x, Micro.add_sub_micro_origin_y,
      Micro.add_sub_micro_site]
    exact h

/-- C5 (amended): the constructor does not snap, so the lattice invariant
holds from construction only when the construction origin is already a
lattice point; granted that, it is preserved by every operation of the
model, and any set_origin (or set_origin_by_grid) establishes it
unconditionally. -/
theorem C5_origin_lattice (m : Micro) (ops : List MicroOp) (x y : ℚ) :
    (m.originOnLattice → (m.applyOps ops).originOnLattice) ∧
      (m.set_origin x y).originOnLattice := by
  refine ⟨fun h => ?_, set_origin_lattice m x y⟩
  induction ops generalizing m with
  | nil => exact h
  | cons op rest ih =>
    rw [Micro.applyOps, List.foldl_cons]
    exact ih _ (applyOp_lattice m op h)

/-- C5 witness: a micro built at the lattice origin zero stays on the
lattice after a concrete move, and a set_origin puts even the off lattice
cexOffMicro onto the lattice. -/
theorem C5_origin_lattice_witness :
    ((Micro.init "A" 0 0).applyOps [MicroOp.moveBy (7/50) 0]).originOnLattice ∧
      (cexOffMicro.set_origin (7/100) 0).originOnLattice := by
  constructor
  · exact (C5_origin_lattice (Micro.init "A" 0 0) [MicroOp.moveBy (7/50) 0] 0 0).1
      ⟨⟨0, by norm_num [Micro.init, Micro.origin_x]⟩,
        ⟨0, by norm_num [Micro.init, Micro.origin_y]⟩⟩
  · exact (C5_origin_lattice cexOffMicro [] (7/100) 0).2

/-- C5 counterexample: a Micro constructed at x = 0.07 on the default
grid of pitch 0.14 stores the origin unsnapped, and 0.07 is no integer
multiple of 0.14, so the invariant fails at construction time. -/
theorem C5_counterexample : ¬ cexOffMicro.originOnLattice := by
  rintro ⟨⟨n, hn⟩, -⟩
  rw [show cexOffMicro.origin_x = 7/100 from rfl,
    show cexOffMicro.site_info.width = 7/50 from rfl] at hn
  have h14 : (14 * n : ℚ) = 7 := by
    rw [div_eq_iff (by norm_num : (100:ℚ) ≠ 0)] at hn
    field_simp at hn
    linarith
  have : (14 * n : ℤ) = 7 := by exact_mod_cast h14
  omega

/-- C6 (amended): provided the stored origin of the Micro is a lattice
point of its grid (as every set_origin leaves it, though not every
constructor call), move_by dx dy produces exactly the same tree state as
set_origin at the old origin plus the snapped delta.  Without that
proviso the two differ, because set_origin snaps the sum while move_by
does not (see the C6 counterexample). -/
theorem C6_move_by_is_set_origin (m : Micro) (dx dy : ℚ) (h : m.originOnLattice) :
    m.move_by dx dy =
      m.set_origin (m.origin_x + (m.site_info.snap_to_grid dx dy).1)
        (m.origin_y + (m.site_info.snap_to_grid dx dy).2) := by
  have hx : isLatticeOf m.site_info.width (m.origin_x + (m.site_info.snap_to_grid dx dy).1) :=
    isLatticeOf_add _ _ _ h.1 (snap_fst_lattice m.site_info dx dy)
  have hy : isLatticeOf m.site_info.height (m.origin_y + (m.site_info.snap_to_grid dx dy).2) :=
    isLatticeOf_add _ _ _ h.2 (snap_snd_lattice m.site_info dx dy)
  have hfix := snap_fixes_lattice m.site_info _ _ hx hy
  unfold Micro.move_by Micro.set_origin
  rw [hfix]

/-- C6 witness: on a lattice micro holding one cell, a concrete move by
a fifth of a pitch lands in exactly the state of the corresponding
set_origin call. -/
theorem C6_move_by_is_set_origin_witness :
    (witnessMicroC10.move_by (7/250) 0) =
      witnessMicroC10.set_origin
        (witnessMicroC10.origin_x + (witnessMicroC10.site_info.snap_to_grid (7/250) 0).1)
        (witnessMicroC10.origin_y + (witnessMicroC10.site_info.snap_to_grid (7/250) 0).2) := by
  refine C6_move_by_is_set_origin witnessMicroC10 (7/250) 0 ⟨⟨0, ?_⟩, ⟨0, ?_⟩⟩ <;>
    norm_num [witnessMicroC10, Micro.init, Micro.add_cell, Micro.origin_x, Micro.origin_y,
      Micro.site_info]

/-- C6 counterexample: a Micro constructed at the unsnapped x = 0.07
moved by (0, 0) keeps origin x = 0.07, while set_origin at origin plus
the snapped zero delta snaps 0.07 to 0 (0.07 over 0.14 is one half, and
the bankers round of one half is 0): the claimed equality of states
fails. -/
theorem C6_counterexample :
    (cexOffMicro.move_by 0 0).origin_x = 7/100 ∧
      (cexOffMicro.set_origin
          (cexOffMicro.origin_x + (cexOffMicro.site_info.snap_to_grid 0 0).1)
          (cexOffMicro.origin_y + (cexOffMicro.site_info.snap_to_grid 0 0).2)).origin_x = 0 ∧
      ((7 : ℚ)/100) ≠ 0 := by
  have p0 : pyRound (0 : ℚ) = 0 := pyRound_eq_int _ 0 (by norm_num)
  have ph : pyRound ((1 : ℚ)/2) = 0 := by
    rw [show ((1 : ℚ)/2) = ((0 : ℤ) : ℚ) + 1/2 by norm_num]
    exact pyRound_half_even 0 (by decide)
  refine ⟨?_, ?_, by norm_num⟩
  · rw [Micro.move_by_origin_x]
    norm_num [cexOffMicro, Micro.init, Micro.origin_x, Micro.site_info,
      SiteInfo.snap_to_grid, p0]
  · rw [Micro.set_origin_origin_x]
    norm_num [cexOffMicro, Micro.init, Micro.origin_x, Micro.origin_y, Micro.site_info,
      SiteInfo.snap_to_grid, p0, ph]

theorem place_micro_cases (e : PlaceCellEngine) (n : String) (x y : ℚ) :
    ((∃ msg, e.place_micro n x y = .error msg) ↔ e.lookupActive n = none) ∧
      (∀ m, e.lookupActive n = some m →
        e.place_micro n x y =
          .ok { e with active_micros := updateActive e.active_micros n (m.set_origin x y) }) := by
  cases h : e.lookupActive n with
  | none =>
    refine ⟨⟨fun _ => rfl, fun _ => ⟨"Micro " ++ n ++ " not found", ?_⟩⟩, fun m hm => nomatch hm⟩
    unfold PlaceCellEngine.place_micro
    rw [h]
  | some m0 =>
    refine ⟨⟨?_, fun hn => nomatch hn⟩, ?_⟩
    · rintro ⟨msg, hmsg⟩
      unfold PlaceCellEngine.place_micro at hmsg
      rw [h] at hmsg
      exact Except.noConfusion hmsg
    · rintro m hm
      cases hm
      unfold PlaceCellEngine.place_micro
      rw [h]

theorem place_micro_by_grid_cases (e : PlaceCellEngine) (n : String) (gx gy : ℤ) :
    ((∃ msg, e.place_micro_by_grid n gx gy = .error msg) ↔ e.lookupActive n = none) ∧
      (∀ m, e.lookupActive n = some m →
        e.place_micro_by_grid n gx gy =
          .ok { e with active_micros := updateActive e.active_micros n (m.set_origin_by_grid gx gy) }) := by
  cases h : e.lookupActive n with
  | none =>
    refine ⟨⟨fun _ => rfl, fun _ => ⟨"Micro " ++ n ++ " not found", ?_⟩⟩, fun m hm => nomatch hm⟩
    unfold PlaceCellEngine.place_micro_by_grid
    rw [h]
  | some m0 =>
    refine ⟨⟨?_, fun hn => nomatch hn⟩, ?_⟩
    · rintro ⟨msg, hmsg⟩
      unfold PlaceCellEngine.place_micro_by_grid at hmsg
      rw [h] at hmsg
      exact Except.noConfusion hmsg
    · rintro m hm
      cases hm
      unfold PlaceCellEngine.place_micro_by_grid
      rw [h]

theorem move_micro_cases (e : PlaceCellEngine) (n : String) (dx dy : ℚ) :
    ((∃ msg, e.move_micro n dx dy = .error msg) ↔ e.lookupActive n = none) ∧
      (∀ m, e.lookupActive n = some m →
        e.move_micro n dx dy =
          .ok { e with active_micros := updateActive e.active_micros n (m.move_by dx dy) }) := by
  cases h : e.lookupActive n with
  | none =>
    refine ⟨⟨fun _ => rfl, fun _ => ⟨"Micro " ++ n ++ " not found", ?_⟩⟩, fun m hm => nomatch hm⟩
    unfold PlaceCellEngine.move_micro
    rw [h]
  | some m0 =>
    refine ⟨⟨?_, fun hn => nomatch hn⟩, ?_⟩
    · rintro ⟨msg, hmsg⟩
      unfold PlaceCellEngine.move_micro at hmsg
      rw [h] at hmsg
      exact Except.noConfusion hmsg
    · rintro m hm
      cases hm
      unfold PlaceCellEngine.move_micro
      rw [h]

theorem move_micro_by_grid_cases (e : PlaceCellEngine) (n : String) (dgx dgy : ℤ) :
    ((∃ msg, e.move_micro_by_grid n dgx dgy = .error msg) ↔ e.lookupActive n = none) ∧
      (∀ m, e.lookupActive n = some m →
        e.move_micro_by_grid n dgx dgy =
          .ok { e with active_micros := updateActive e.active_micros n (m.move_by_grid dgx dgy) }) := by
  cases h : e.lookupActive n with
  | none =>
    refine ⟨⟨fun _ => rfl, fun _ => ⟨"Micro " ++ n ++ " not found", ?_⟩⟩, fun m hm => nomatch hm⟩
    unfold PlaceCellEngine.move_micro_by_grid
    rw [h]
  | some m0 =>
    refine ⟨⟨?_, fun hn => nomatch hn⟩, ?_⟩
    · rintro ⟨msg, hmsg⟩
      unfold PlaceCellEngine.move_micro_by_grid at hmsg
      rw [h] at hmsg
      exact Except.noConfusion hmsg
    · rintro m hm
      cases hm
      unfold PlaceCellEngine.move_micro_by_grid
      rw [h]

/-- C9: each of the four engine reposition operations fails (raises, here
an error value) exactly when the name is not registered as an active
micro, and on a registered name it succeeds and delegates to the
corresponding Micro operation on the stored tree. -/
theorem C9_engine_lookup_failures (e : PlaceCellEngine) (n : String) (x y : ℚ)
    (gx gy : ℤ) (dx dy : ℚ) (dgx dgy : ℤ) :
    ((∃ msg, e.place_micro n x y = .error msg) ↔ e.lookupActive n = none) ∧
      (∀ m, e.lookupActive n = some m →
        e.place_micro n x y =
          .ok { e with active_micros := updateActive e.active_micros n (m.set_origin x y) }) ∧
      ((∃ msg, e.place_micro_by_grid n gx gy = .error msg) ↔ e.lookupActive n = none) ∧
      (∀ m, e.lookupActive n = some m →
        e.place_micro_by_grid n gx gy =
          .ok { e with active_micros := updateActive e.active_micros n (m.set_origin_by_grid gx gy) }) ∧
      ((∃ msg, e.move_micro n dx dy = .error msg) ↔ e.lookupActive n = none) ∧
      (∀ m, e.lookupActive n = some m →
        e.move_micro n dx dy =
          .ok { e with active_micros := updateActive e.active_micros n (m.move_by dx dy) }) ∧
      ((∃ msg, e.move_micro_by_grid n dgx dgy = .error msg) ↔ e.lookupActive n = none) ∧
      (∀ m, e.lookupActive n = some m →
        e.move_micro_by_grid n dgx dgy =
          .ok { e with active_micros := updateActive e.active_micros n (m.move_by_grid dgx dgy) }) :=
  ⟨(place_micro_cases e n x y).1, (place_micro_cases e n x y).2,
    (place_micro_by_grid_cases e n gx gy).1, (place_micro_by_grid_cases e n gx gy).2,
    (move_micro_cases e n dx dy).1, (move_micro_cases e n dx dy).2,
    (move_micro_by_grid_cases e n dgx dgy).1, (move_micro_by_grid_cases e n dgx dgy).2⟩

/-- C9 witness: on the concrete one entry registry, placing the
registered name A succeeds with the delegated set_origin, and placing the
unknown name B fails. -/
theorem C9_engine_lookup_failures_witness :
    cexEngine.place_micro "A" (7/50) 0 =
      .ok { cexEngine with
        active_micros :=
          updateActive cexEngine.active_micros "A" ((Micro.init "A" 0 0).set_origin (7/50) 0) } ∧
      (∃ msg, cexEngine.place_micro "B" (7/50) 0 = .error msg) := by
  constructor
  · exact (C9_engine_lookup_failures cexEngine "A" (7/50) 0 0 0 0 0 0 0).2.1
      (Micro.init "A" 0 0) rfl
  · exact (C9_engine_lookup_failures cexEngine "B" (7/50) 0 0 0 0 0 0 0).1.mpr rfl

theorem Cell.clone_name (c : Cell) : c.clone.name = c.name := rfl

theorem Cell.clone_x (c : Cell) : c.clone.x = c.x := rfl

theorem Cell.clone_y (c : Cell) : c.clone.y = c.y := rfl

theorem Cell.clone_width (c : Cell) : c.clone.width = c.width := rfl

theorem Cell.clone_height (c : Cell) : c.clone.height = c.height := rfl

theorem Cell.clone_orient (c : Cell) : c.clone.orientation = c.orientation := rfl

theorem Cell.clone_abs_x (c : Cell) : c.clone.absolute_x = c.absolute_x := rfl

theorem Cell.clone_abs_y (c : Cell) : c.clone.absolute_y = c.absolute_y := rfl

theorem Cell.sap_name (c : Cell) (ox oy : ℚ) (si : SiteInfo) :
    (c.set_absolute_position ox oy (some si)).name = c.name := rfl

theorem Cell.sap_width (c : Cell) (ox oy : ℚ) (si : SiteInfo) :
    (c.set_absolute_position ox oy (some si)).width = c.width := rfl

theorem Cell.sap_height (c : Cell) (ox oy : ℚ) (si : SiteInfo) :
    (c.set_absolute_position ox oy (some si)).height = c.height := rfl

theorem Cell.shp_name (c : Cell) (p : String) : (c.set_hierarchical_path p).name = c.name := by
  unfold Cell.set_hierarchical_path
  split <;> rfl

theorem Cell.shp_width (c : Cell) (p : String) : (c.set_hierarchical_path p).width = c.width := by
  unfold Cell.set_hierarchical_path
  split <;> rfl

theorem Cell.shp_height (c : Cell) (p : String) : (c.set_hierarchical_path p).height = c.height := by
  unfold Cell.set_hierarchical_path
  split <;> rfl

theorem Cell.shp_orient (c : Cell) (p : String) :
    (c.set_hierarchical_path p).orientation = c.orientation := by
  unfold Cell.set_hierarchical_path
  split <;> rfl

theorem Micro.update_name (m : Micro) : m.update_absolute_positions.name = m.name := by
  cases m
  rw [Micro.update_absolute_positions, Micro.name, Micro.name]

theorem Micro.withOriginGrid_name (m : Micro) (x y : ℚ) :
    (m.withOriginGrid x y).name = m.name := by
  cases m
  rw [Micro.withOriginGrid, Micro.name, Micro.name]

theorem Micro.set_origin_name (m : Micro) (x y : ℚ) : (m.set_origin x y).name = m.name := by
  unfold Micro.set_origin
  rw [Micro.update_name, Micro.withOriginGrid_name]

theorem Micro.setHier_origin_x (m : Micro) (p : String) :
    (m.set_hierarchical_path p).origin_x = m.origin_x := by
  cases m
  rw [Micro.set_hierarchical_path, Micro.origin_x, Micro.origin_x]

theorem Micro.setHier_origin_y (m : Micro) (p : String) :
    (m.set_hierarchical_path p).origin_y = m.origin_y := by
  cases m
  rw [Micro.set_hierarchical_path, Micro.origin_y, Micro.origin_y]

theorem Micro.setHier_site (m : Micro) (p : String) :
    (m.set_hierarchical_path p).site_info = m.site_info := by
  cases m
  rw [Micro.set_hierarchical_path, Micro.site_info, Micro.site_info]

theorem Micro.setHier_name (m : Micro) (p : String) :
    (m.set_hierarchical_path p).name = m.name := by
  cases m
  rw [Micro.set_hierarchical_path, Micro.name, Micro.name]

theorem Micro.add_cell_name (m : Micro) (c : Cell) : (m.add_cell c).name = m.name := by
  cases m
  rw [Micro.add_cell, Micro.name, Micro.name]

theorem Micro.add_cell_descr (m : Micro) (c : Cell) :
    (m.add_cell c).description = m.description := by
  cases m
  rw [Micro.add_cell, Micro.description, Micro.description]

theorem Micro.add_cell_path (m : Micro) (c : Cell) :
    (m.add_cell c).hierarchical_path = m.hierarchical_path := by
  cases m
  rw [Micro.add_cell, Micro.hierarchical_path, Micro.hierarchical_path]

theorem Micro.add_cell_subs (m : Micro) (c : Cell) :
    (m.add_cell c).sub_micros = m.sub_micros := by
  cases m
  rw [Micro.add_cell, Micro.sub_micros, Micro.sub_micros]

theorem Micro.add_cell_cells (m : Micro) (c : Cell) :
    (m.add_cell c).cells = m.cells ++
      [((c.clone).set_absolute_position m.origin_x m.origin_y
          (some m.site_info)).set_hierarchical_path m.hierarchical_path] := by
  cases m
  rw [Micro.add_cell, Micro.cells, Micro.cells, Micro.origin_x, Micro.origin_y,
    Micro.site_info, Micro.hierarchical_path]

theorem Micro.appendSub_name (m s : Micro) : (m.appendSub s).name = m.name := by
  cases m
  rw [Micro.appendSub, Micro.name, Micro.name]

theorem Micro.appendSub_descr (m s : Micro) : (m.appendSub s).description = m.description := by
  cases m
  rw [Micro.appendSub, Micro.description, Micro.description]

theorem Micro.appendSub_path (m s : Micro) :
    (m.appendSub s).hierarchical_path = m.hierarchical_path := by
  cases m
  rw [Micro.appendSub, Micro.hierarchical_path, Micro.hierarchical_path]

theorem Micro.appendSub_cells (m s : Micro) : (m.appendSub s).cells = m.cells := by
  cases m
  rw [Micro.appendSub, Micro.cells, Micro.cells]

theorem Micro.appendSub_subs (m s : Micro) :
    (m.appendSub s).sub_micros = m.sub_micros ++ [s] := by
  cases m
  rw [Micro.appendSub, Micro.sub_micros, Micro.sub_micros]

theorem Micro.addSubF_name (k : ℕ) (m s : Micro) : (Micro.addSubF k m s).name = m.name := by
  rw [Micro.addSubF]
  exact Micro.appendSub_name _ _

theorem Micro.addSubF_descr (k : ℕ) (m s : Micro) :
    (Micro.addSubF k m s).description = m.description := by
  rw [Micro.addSubF]
  exact Micro.appendSub_descr _ _

theorem Micro.addSubF_path (k : ℕ) (m s : Micro) :
    (Micro.addSubF k m s).hierarchical_path = m.hierarchical_path := by
  rw [Micro.addSubF]
  exact Micro.appendSub_path _ _

theorem Micro.addSubF_cells (k : ℕ) (m s : Micro) :
    (Micro.addSubF k m s).cells = m.cells := by
  rw [Micro.addSubF]
  exact Micro.appendSub_cells _ _

theorem Micro.addSubF_origin_x2 (k : ℕ) (m s : Micro) :
    (Micro.addSubF k m s).origin_x = m.origin_x := by
  rw [Micro.addSubF]
  exact Micro.appendSub_origin_x _ _

theorem Micro.addSubF_origin_y2 (k : ℕ) (m s : Micro) :
    (Micro.addSubF k m s).origin_y = m.origin_y := by
  rw [Micro.addSubF]
  exact Micro.appendSub_origin_y _ _

theorem Micro.addSubF_site2 (k : ℕ) (m s : Micro) :
    (Micro.addSubF k m s).site_info = m.site_info := by
  rw [Micro.addSubF]
  exact Micro.appendSub_site _ _

theorem foldl_add_cell_name (cs : List Cell) (b : Micro) :
    (cs.foldl (fun acc c => acc.add_cell c.clone) b).name = b.name := by
  induction cs generalizing b with
  | nil => rfl
  | cons c rest ih => rw [List.foldl_cons, ih, Micro.add_cell_name]

theorem foldl_add_cell_descr (cs : List Cell) (b : Micro) :
    (cs.foldl (fun acc c => acc.add_cell c.clone) b).description = b.description := by
  induction cs generalizing b with
  | nil => rfl
  | cons c rest ih => rw [List.foldl_cons, ih, Micro.add_cell_descr]

theorem foldl_add_cell_origin_x (cs : List Cell) (b : Micro) :
    (cs.foldl (fun acc c => acc.add_cell c.clone) b).origin_x = b.origin_x := by
  induction cs generalizing b with
  | nil => rfl
  | cons c rest ih => rw [List.foldl_cons, ih, Micro.add_cell_origin_x]

theorem foldl_add_cell_origin_y (cs : List Cell) (b : Micro) :
    (cs.foldl (fun acc c => acc.add_cell c.clone) b).origin_y = b.origin_y := by
  induction cs generalizing b with
  | nil => rfl
  | cons c rest ih => rw [List.foldl_cons, ih, Micro.add_cell_origin_y]

theorem foldl_add_cell_site (cs : List Cell) (b : Micro) :
    (cs.foldl (fun acc c => acc.add_cell c.clone) b).site_info = b.site_info := by
  induction cs generalizing b with
  | nil => rfl
  | cons c rest ih => rw [List.foldl_cons, ih, Micro.add_cell_site]

theorem foldl_add_cell_path (cs : List Cell) (b : Micro) :
    (cs.foldl (fun acc c => acc.add_cell c.clone) b).hierarchical_path = b.hierarchical_path := by
  induction cs generalizing b with
  | nil => rfl
  | cons c rest ih => rw [List.foldl_cons, ih, Micro.add_cell_path]

theorem foldl_add_cell_subs (cs : List Cell) (b : Micro) :
    (cs.foldl (fun acc c => acc.add_cell c.clone) b).sub_micros = b.sub_micros := by
  induction cs generalizing b with
  | nil => rfl
  | cons c rest ih => rw [List.foldl_cons, ih, Micro.add_cell_subs]

theorem foldl_add_cell_cells (cs : List Cell) (b : Micro) :
    (cs.foldl (fun acc c => acc.add_cell c.clone) b).cells =
      b.cells ++ cs.map (fun c =>
        ((c.clone.clone).set_absolute_position b.origin_x b.origin_y
          (some b.site_info)).set_hierarchical_path b.hierarchical_path) := by
  induction cs generalizing b with
  | nil => rw [List.foldl_nil, List.map_nil, List.append_nil]
  | cons c rest ih =>
    rw [List.foldl_cons, ih, Micro.add_cell_cells, List.map_cons,
      Micro.add_cell_origin_x, Micro.add_cell_origin_y, Micro.add_cell_site,
      Micro.add_cell_path, List.append_assoc, List.singleton_append]

theorem cloneSubsF_name (k : ℕ) (l : List Micro) (acc : Micro) :
    (Micro.cloneSubsF k l acc).name = acc.name := by
  induction l generalizing acc with
  | nil => rw [Micro.cloneSubsF]
  | cons s rest ih => rw [Micro.cloneSubsF, ih, Micro.addSubF_name]

theorem cloneSubsF_descr (k : ℕ) (l : List Micro) (acc : Micro) :
    (Micro.cloneSubsF k l acc).description = acc.description := by
  induction l generalizing acc with
  | nil => rw [Micro.cloneSubsF]
  | cons s rest ih => rw [Micro.cloneSubsF, ih, Micro.addSubF_descr]

theorem cloneSubsF_origin_x (k : ℕ) (l : List Micro) (acc : Micro) :
    (Micro.cloneSubsF k l acc).origin_x = acc.origin_x := by
  induction l generalizing acc with
  | nil => rw [Micro.cloneSubsF]
  | cons s rest ih => rw [Micro.cloneSubsF, ih, Micro.addSubF_origin_x2]

theorem cloneSubsF_origin_y (k : ℕ) (l : List Micro) (acc : Micro) :
    (Micro.cloneSubsF k l acc).origin_y = acc.origin_y := by
  induction l generalizing acc with
  | nil => rw [Micro.cloneSubsF]
  | cons s rest ih => rw [Micro.cloneSubsF, ih, Micro.addSubF_origin_y2]

theorem cloneSubsF_site (k : ℕ) (l : List Micro) (acc : Micro) :
    (Micro.cloneSubsF k l acc).site_info = acc.site_info := by
  induction l generalizing acc with
  | nil => rw [Micro.cloneSubsF]
  | cons s rest ih => rw [Micro.cloneSubsF, ih, Micro.addSubF_site2]

theorem cloneSubsF_path (k : ℕ) (l : List Micro) (acc : Micro) :
    (Micro.cloneSubsF k l acc).hierarchical_path = acc.hierarchical_path := by
  induction l generalizing acc with
  | nil => rw [Micro.cloneSubsF]
  | cons s rest ih => rw [Micro.cloneSubsF, ih, Micro.addSubF_path]

theorem cloneSubsF_cells (k : ℕ) (l : List Micro) (acc : Micro) :
    (Micro.cloneSubsF k l acc).cells = acc.cells := by
  induction l generalizing acc with
  | nil => rw [Micro.cloneSubsF]
  | cons s rest ih => rw [Micro.cloneSubsF, ih, Micro.addSubF_cells]

theorem cloneSubsF_subs (k : ℕ) (l : List Micro) (acc : Micro) :
    (Micro.cloneSubsF k l acc).sub_micros = acc.sub_micros ++ l.map (fun s =>
      ((Micro.cloneF k (Micro.cloneF k s none) none).set_hierarchical_path
          acc.hierarchical_path).set_origin
        (acc.origin_x + ((Micro.cloneF k (Micro.cloneF k s none) none).set_hierarchical_path
          acc.hierarchical_path).origin_x)
        (acc.origin_y + ((Micro.cloneF k (Micro.cloneF k s none) none).set_hierarchical_path
          acc.hierarchical_path).origin_y)) := by
  induction l generalizing acc with
  | nil => rw [Micro.cloneSubsF, List.map_nil, List.append_nil]
  | cons s rest ih =>
    rw [Micro.cloneSubsF, ih, List.map_cons]
    rw [Micro.addSubF]
    rw [Micro.appendSub_subs]
    simp only [Micro.appendSub_origin_x, Micro.appendSub_origin_y, Micro.appendSub_path]
    rw [List.append_assoc, List.singleton_append]

theorem cloneF_succ_name (k : ℕ) (m : Micro) (nn : Option String) :
    (Micro.cloneF (k + 1) m nn).name = nn.getD m.name := by
  cases m
  rw [Micro.cloneF, cloneSubsF_name, foldl_add_cell_name, Micro.init, Micro.name, Micro.name]

theorem cloneF_succ_descr (k : ℕ) (m : Micro) (nn : Option String) :
    (Micro.cloneF (k + 1) m nn).description = m.description := by
  cases m
  rw [Micro.cloneF, cloneSubsF_descr, foldl_add_cell_descr, Micro.init, Micro.description,
    Micro.description]

theorem cloneF_succ_origin_x (k : ℕ) (m : Micro) (nn : Option String) :
    (Micro.cloneF (k + 1) m nn).origin_x = m.origin_x := by
  cases m
  rw [Micro.cloneF, cloneSubsF_origin_x, foldl_add_cell_origin_x, Micro.init, Micro.origin_x,
    Micro.origin_x]

theorem cloneF_succ_origin_y (k : ℕ) (m : Micro) (nn : Option String) :
    (Micro.cloneF (k + 1) m nn).origin_y = m.origin_y := by
  cases m
  rw [Micro.cloneF, cloneSubsF_origin_y, foldl_add_cell_origin_y, Micro.init, Micro.origin_y,
    Micro.origin_y]

theorem cloneF_succ_site (k : ℕ) (m : Micro) (nn : Option String) :
    (Micro.cloneF (k + 1) m nn).site_info = m.site_info := by
  cases m
  rw [Micro.cloneF, cloneSubsF_site, foldl_add_cell_site, Micro.init, Micro.site_info,
    Micro.site_info]

theorem cloneF_succ_path (k : ℕ) (m : Micro) (nn : Option String) :
    (Micro.cloneF (k + 1) m nn).hierarchical_path = nn.getD m.name := by
  cases m
  rw [Micro.cloneF, cloneSubsF_path, foldl_add_cell_path, Micro.init,
    Micro.hierarchical_path, Micro.name]

theorem cloneF_name (k : ℕ) (m : Micro) : (Micro.cloneF k m none).name = m.name := by
  cases k with
  | zero => rw [Micro.cloneF]
  | succ k => rw [cloneF_succ_name, Option.getD_none]

theorem cloneF_origin_x (k : ℕ) (m : Micro) : (Micro.cloneF k m none).origin_x = m.origin_x := by
  cases k with
  | zero => rw [Micro.cloneF]
  | succ k => rw [cloneF_succ_origin_x]

theorem cloneF_origin_y (k : ℕ) (m : Micro) : (Micro.cloneF k m none).origin_y = m.origin_y := by
  cases k with
  | zero => rw [Micro.cloneF]
  | succ k => rw [cloneF_succ_origin_y]

theorem cloneF_site (k : ℕ) (m : Micro) : (Micro.cloneF k m none).site_info = m.site_info := by
  cases k with
  | zero => rw [Micro.cloneF]
  | succ k => rw [cloneF_succ_site]

/-- C4 (amended): clone m returns a new Micro with name m.name unless a
new name is given, the same origin, description, grid pitches and (on a
tree satisfying the ownership invariant, as every reachable tree does)
directly owned cells corresponding one to one and in order with identical
names, stored positions, absolute positions, sizes and orientations; the
sub micros correspond one to one and in order by name, but each cloned
sub micro receives origin snap(m.origin + s.origin) rather than keeping
its own origin s.origin, because add_sub_micro reads the serialised
absolute origin of the clone as a parent relative offset (see the C4
counterexample).  Sharing of mutable state cannot arise in this model:
insertion always copies. -/
theorem C4_clone_correspondence (m : Micro) (nn : Option String) (h : m.cellsConsistent) :
    (m.clone nn).name = nn.getD m.name ∧
      (m.clone nn).origin_x = m.origin_x ∧
      (m.clone nn).origin_y = m.origin_y ∧
      (m.clone nn).description = m.description ∧
      (m.clone nn).site_info = m.site_info ∧
      List.Forall₂ (fun c2 c => c2.name = c.name ∧ c2.x = c.x ∧ c2.y = c.y ∧
          c2.width = c.width ∧ c2.height = c.height ∧ c2.orientation = c.orientation ∧
          c2.absolute_x = c.absolute_x ∧ c2.absolute_y = c.absolute_y)
        (m.clone nn).cells m.cells ∧
      List.Forall₂ (fun s2 s => s2.name = s.name ∧
          s2.origin_x = (s.site_info.snap_to_grid (m.origin_x + s.origin_x)
            (m.origin_y + s.origin_y)).1 ∧
          s2.origin_y = (s.site_info.snap_to_grid (m.origin_x + s.origin_x)
            (m.origin_y + s.origin_y)).2)
        (m.clone nn).sub_micros m.sub_micros := by
  cases m with
  | mk n ox oy d si cs hp gx gy subs =>
    have hdep : (Micro.mk n ox oy d si cs hp gx gy subs).depth = Micro.depthList subs + 1 := by
      rw [Micro.depth]
      omega
    rw [Micro.cellsConsistent] at h
    unfold Micro.clone
    rw [hdep]
    refine ⟨cloneF_succ_name _ _ _, cloneF_succ_origin_x _ _ _, cloneF_succ_origin_y _ _ _,
      cloneF_succ_descr _ _ _, cloneF_succ_site _ _ _, ?_, ?_⟩
    · rw [Micro.cloneF, cloneSubsF_cells, foldl_add_cell_cells]
      rw [show (Micro.init (nn.getD n) ox oy d ⟨si.width, si.height⟩).cells = [] from rfl,
        List.nil_append]
      rw [show (Micro.init (nn.getD n) ox oy d ⟨si.width, si.height⟩).origin_x = ox from rfl,
        show (Micro.init (nn.getD n) ox oy d ⟨si.width, si.height⟩).origin_y = oy from rfl,
        show (Micro.init (nn.getD n) ox oy d ⟨si.width, si.height⟩).site_info = si from rfl]
      simp only [show (Micro.mk n ox oy d si cs hp gx gy subs).cells = cs from rfl]
      rw [List.forall₂_map_left_iff, List.forall₂_same]
      intro c hc
      obtain ⟨hax, hay⟩ := h.1 c hc
      refine ⟨?_, ?_, ?_, ?_, ?_, ?_, ?_, ?_⟩
      · rw [Cell.shp_name, Cell.sap_name, Cell.clone_name, Cell.clone_name]
      · rw [Cell.shp_x, Cell.sap_x, Cell.clone_x, Cell.clone_x]
      · rw [Cell.shp_y, Cell.sap_y, Cell.clone_y, Cell.clone_y]
      · rw [Cell.shp_width, Cell.sap_width, Cell.clone_width, Cell.clone_width]
      · rw [Cell.shp_height, Cell.sap_height, Cell.clone_height, Cell.clone_height]
      · rw [Cell.shp_orient, Cell.sap_orient, Cell.clone_orient, Cell.clone_orient]
      · rw [Cell.shp_abs_x, Cell.sap_abs_x, Cell.clone_x, Cell.clone_x, hax]
      · rw [Cell.shp_abs_y, Cell.sap_abs_y, Cell.clone_y, Cell.clone_y, hay]
    · rw [Micro.cloneF, cloneSubsF_subs, foldl_add_cell_subs]
      rw [show (Micro.init (nn.getD n) ox oy d ⟨si.width, si.height⟩).sub_micros = [] from rfl,
        List.nil_append]
      rw [foldl_add_cell_origin_x, foldl_add_cell_origin_y,
        show (Micro.init (nn.getD n) ox oy d ⟨si.width, si.height⟩).origin_x = ox from rfl,
        show (Micro.init (nn.getD n) ox oy d ⟨si.width, si.height⟩).origin_y = oy from rfl]
      simp only [show (Micro.mk n ox oy d si cs hp gx gy subs).sub_micros = subs from rfl,
        show (Micro.mk n ox oy d si cs hp gx gy subs).origin_x = ox from rfl,
        show (Micro.mk n ox oy d si cs hp gx gy subs).origin_y = oy from rfl]
      rw [List.forall₂_map_left_iff, List.forall₂_same]
      intro s hs
      refine ⟨?_, ?_, ?_⟩
      · rw [Micro.set_origin_name, Micro.setHier_name, cloneF_name, cloneF_name]
      · rw [Micro.set_origin_origin_x, Micro.setHier_site, cloneF_site, cloneF_site,
          Micro.setHier_origin_x, cloneF_origin_x, cloneF_origin_x,
          Micro.setHier_origin_y, cloneF_origin_y, cloneF_origin_y]
      · rw [Micro.set_origin_origin_y, Micro.setHier_site, cloneF_site, cloneF_site,
          Micro.setHier_origin_y, cloneF_origin_y, cloneF_origin_y,
          Micro.setHier_origin_x, cloneF_origin_x, cloneF_origin_x]

/-- C4 witness: the amended clone correspondence holds on a concrete one
cell micro, with the ownership invariant discharged concretely. -/
theorem C4_clone_correspondence_witness :
    witnessMicroC10.cellsConsistent ∧
      (witnessMicroC10.clone (some "W2")).name = "W2" ∧
      (witnessMicroC10.clone (some "W2")).origin_x = witnessMicroC10.origin_x ∧
      (witnessMicroC10.clone (some "W2")).origin_y = witnessMicroC10.origin_y ∧
      (witnessMicroC10.clone (some "W2")).description = witnessMicroC10.description ∧
      (witnessMicroC10.clone (some "W2")).site_info = witnessMicroC10.site_info ∧
      List.Forall₂ (fun c2 c => c2.name = c.name ∧ c2.x = c.x ∧ c2.y = c.y ∧
          c2.width = c.width ∧ c2.height = c.height ∧ c2.orientation = c.orientation ∧
          c2.absolute_x = c.absolute_x ∧ c2.absolute_y = c.absolute_y)
        (witnessMicroC10.clone (some "W2")).cells witnessMicroC10.cells ∧
      List.Forall₂ (fun s2 s => s2.name = s.name ∧
          s2.origin_x = (s.site_info.snap_to_grid (witnessMicroC10.origin_x + s.origin_x)
            (witnessMicroC10.origin_y + s.origin_y)).1 ∧
          s2.origin_y = (s.site_info.snap_to_grid (witnessMicroC10.origin_x + s.origin_x)
            (witnessMicroC10.origin_y + s.origin_y)).2)
        (witnessMicroC10.clone (some "W2")).sub_micros witnessMicroC10.sub_micros := by
  have hcons : witnessMicroC10.cellsConsistent :=
    add_cell_consistent _ _ (init_consistent "M" 0 0 "" {})
  obtain ⟨h1, h2, h3, h4, h5, h6, h7⟩ :=
    C4_clone_correspondence witnessMicroC10 (some "W2") hcons
  exact ⟨hcons, h1, h2, h3, h4, h5, h6, h7⟩

/-- C4 counterexample: cloning the concrete tree cexTree (root origin
0.14, sub micro origin 0.28 absolute) yields a clone whose sub micro sits
at 0.42: the re-attach inside clone adds the root origin to the already
absolute sub origin, so stored and absolute positions of the sub micro
and of its cell are not identical to the source, refuting the claim as
stated. -/
theorem C4_counterexample :
    (cexTree.clone none).sub_micros.headI.origin_x = 21/50 ∧
      cexTree.sub_micros.headI.origin_x = 7/25 ∧
      (cexTree.clone none).sub_micros.headI.cells.headI.absolute_x = 21/50 ∧
      cexTree.sub_micros.headI.cells.headI.absolute_x = 7/25 ∧
      ((21 : ℚ)/50) ≠ 7/25 := by
  have p0 : pyRound (0 : ℚ) = 0 := pyRound_eq_int _ 0 (by norm_num)
  have p1 : pyRound (1 : ℚ) = 1 := pyRound_eq_int _ 1 (by norm_num)
  have p2 : pyRound (2 : ℚ) = 2 := pyRound_eq_int _ 2 (by norm_num)
  have p3 : pyRound (3 : ℚ) = 3 := pyRound_eq_int _ 3 (by norm_num)
  have sB : (("B" : String) = "") = False := eq_false (by decide)
  have sR : (("R" : String) = "") = False := eq_false (by decide)
  have sRB : (("R" ++ "/" ++ "B" : String) = "") = False := eq_false (by decide)
  refine ⟨?_, ?_, ?_, ?_, by norm_num⟩ <;>
    norm_num [cexTree, cexSubMicro, Micro.clone, Micro.cloneF, Micro.cloneSubsF,
      Micro.init, Micro.add_cell, Micro.add_sub_micro, Micro.addSubF, Micro.depth,
      Micro.depthList, Micro.appendSub, Micro.set_hierarchical_path, Micro.setPathList,
      Micro.set_origin, Micro.withOriginGrid, Micro.update_absolute_positions,
      Micro.updateSubsForOrigin, updCellForOrigin, Cell.init, Cell.clone,
      Cell.update_grid_coordinates, Cell.update_bbox, Cell.set_absolute_position,
      Cell.set_hierarchical_path, Cell.set_orientation, Cell.get_orientation_for_row,
      SiteInfo.snap_to_grid, SiteInfo.to_grid_coords, Micro.origin_x, Micro.origin_y,
      Micro.sub_micros, Micro.cells, Micro.hierarchical_path, Micro.site_info, Micro.name,
      Micro.grid_x, Micro.grid_y, Option.getD, List.foldl_cons, List.foldl_nil,
      List.map_cons, List.map_nil, List.headI, p0, p1, p2, p3, sB, sR, sRB]

/-- C7 (amended): on the scenario container (two cells of width 0.5 at
relative x 0 and 1, content box width 1.5), flip_horizontal moves the
cells to relative x 1.0 and 0.0; and provided each pre flip orientation
is consistent with its (even) row — that is FS or S, as the automatic row
reassignment leaves any repositioned cell — each final orientation is
the mirror pair partner of the orientation before.  For row inconsistent
input the final orientation is instead the row derived orientation of the
flipped tag (see the C7 counterexample). -/
theorem C7_flip_scenario (o1 o2 : Orientation)
    (h1 : o1 = .FS ∨ o1 = .S) (h2 : o2 = .FS ∨ o2 = .S) :
    ((c7tree o1 o2).flip_horizontal).cells.map (fun c => (c.x, c.orientation)) =
      [(1, mirrorPartner o1), (0, mirrorPartner o2)] := by
  have p0 : pyRound (0 : ℚ) = 0 := pyRound_eq_int _ 0 (by norm_num)
  have p507 : pyRound ((50 : ℚ)/7) = 7 := pyRound_lo _ 7 (by norm_num) (by norm_num)
  have sF : (("F" : String) = "") = False := eq_false (by decide)
  rcases h1 with rfl | rfl <;> rcases h2 with rfl | rfl <;>
    norm_num [c7tree, mirrorPartner, Micro.flip_horizontal, Micro.flipF, Micro.depth,
      Micro.depthList, Micro.calculate_bounding_box, Micro.get_all_cells,
      Micro.getAllCellsList, flipCellStep, Micro.init, Micro.add_cell,
      Micro.update_absolute_positions, Micro.updateSubsForOrigin, updCellForOrigin,
      Cell.init, Cell.clone, Cell.update_grid_coordinates, Cell.update_bbox,
      Cell.set_absolute_position, Cell.set_rel_position, Cell.set_hierarchical_path,
      Cell.set_orientation, Cell.get_orientation_for_row, Cell.flip_oritentation,
      Cell.get_bbox, SiteInfo.snap_to_grid, SiteInfo.to_grid_coords, Micro.origin_x,
      Micro.origin_y, Micro.sub_micros, Micro.cells, Micro.hierarchical_path,
      Micro.site_info, Micro.name, Micro.grid_x, Micro.grid_y, List.foldl_cons,
      List.foldl_nil, List.map_cons, List.map_nil, min_def, max_def, p0, p507, sF] <;>
    (try (rintro (h | h) <;> exact Orientation.noConfusion h))

/-- C7 witness: the amended scenario read off at the concrete row
consistent pre flip orientations FS and S. -/
theorem C7_flip_scenario_witness :
    ((c7tree .FS .S).flip_horizontal).cells.map (fun c => (c.x, c.orientation)) =
      [(1, mirrorPartner .FS), (0, mirrorPartner .S)] :=
  C7_flip_scenario .FS .S (Or.inl rfl) (Or.inr rfl)

/-- C7 counterexample: with both cells in the canonical orientation N
(the state add_cell leaves), the flip still swaps the positions, but the
final orientations are S and S — the row rederivation at the end of
flip_horizontal overrides the mirror toggle — while the claim demands the
mirror partner FN of N. -/
theorem C7_counterexample :
    ((c7tree .N .N).flip_horizontal).cells.map (fun c => (c.x, c.orientation)) =
      [(1, Orientation.S), (0, Orientation.S)] ∧
      mirrorPartner .N = .FN ∧ Orientation.S ≠ Orientation.FN := by
  have p0 : pyRound (0 : ℚ) = 0 := pyRound_eq_int _ 0 (by norm_num)
  have p507 : pyRound ((50 : ℚ)/7) = 7 := pyRound_lo _ 7 (by norm_num) (by norm_num)
  have sF : (("F" : String) = "") = False := eq_false (by decide)
  refine ⟨?_, rfl, fun h => Orientation.noConfusion h⟩
  norm_num [c7tree, Micro.flip_horizontal, Micro.flipF, Micro.depth,
    Micro.depthList, Micro.calculate_bounding_box, Micro.get_all_cells,
    Micro.getAllCellsList, flipCellStep, Micro.init, Micro.add_cell,
    Micro.update_absolute_positions, Micro.updateSubsForOrigin, updCellForOrigin,
    Cell.init, Cell.clone, Cell.update_grid_coordinates, Cell.update_bbox,
    Cell.set_absolute_position, Cell.set_rel_position, Cell.set_hierarchical_path,
    Cell.set_orientation, Cell.get_orientation_for_row, Cell.flip_oritentation,
    Cell.get_bbox, SiteInfo.snap_to_grid, SiteInfo.to_grid_coords, Micro.origin_x,
    Micro.origin_y, Micro.sub_micros, Micro.cells, Micro.hierarchical_path,
    Micro.site_info, Micro.name, Micro.grid_x, Micro.grid_y, List.foldl_cons,
    List.foldl_nil, List.map_cons, List.map_nil, min_def, max_def, p0, p507, sF]
  rintro (h | h) <;> exact Orientation.noConfusion h

/-- C3: evaluating serialisation followed by deserialisation on the
concrete tree cexTree (root origin 0.14, one sub micro stored at the
absolute origin 0.28) shows the round trip failing: the loader hands the
serialised sub micro to add_sub_micro, which adds the root origin again,
so the reloaded sub micro sits at 0.42 instead of 0.28.  The claimed
exact reproduction of the geometry is therefore violated by the code. -/
theorem C3_roundtrip_failure :
    (Micro.load_from_dict cexTree.to_dict).sub_micros.headI.origin_x = 21/50 ∧
      cexTree.sub_micros.headI.origin_x = 7/25 ∧
      ((21 : ℚ)/50) ≠ 7/25 := by
  have p0 : pyRound (0 : ℚ) = 0 := pyRound_eq_int _ 0 (by norm_num)
  have p1 : pyRound (1 : ℚ) = 1 := pyRound_eq_int _ 1 (by norm_num)
  have p2 : pyRound (2 : ℚ) = 2 := pyRound_eq_int _ 2 (by norm_num)
  have p3 : pyRound (3 : ℚ) = 3 := pyRound_eq_int _ 3 (by norm_num)
  have sB : (("B" : String) = "") = False := eq_false (by decide)
  have sR : (("R" : String) = "") = False := eq_false (by decide)
  have sRB : (("R" ++ "/" ++ "B" : String) = "") = False := eq_false (by decide)
  refine ⟨?_, ?_, by norm_num⟩ <;>
    norm_num [cexTree, cexSubMicro, Micro.to_dict, Micro.toDictList, Cell.to_dict,
      Micro.load_from_dict, Micro.loadSubs, Micro.clone, Micro.cloneF, Micro.cloneSubsF,
      Micro.init, Micro.add_cell, Micro.add_sub_micro, Micro.addSubF, Micro.depth,
      Micro.depthList, Micro.appendSub, Micro.set_hierarchical_path, Micro.setPathList,
      Micro.set_origin, Micro.withOriginGrid, Micro.update_absolute_positions,
      Micro.updateSubsForOrigin, updCellForOrigin, Cell.init, Cell.clone,
      Cell.update_grid_coordinates, Cell.update_bbox, Cell.set_absolute_position,
      Cell.set_hierarchical_path, Cell.set_orientation, Cell.get_orientation_for_row,
      SiteInfo.snap_to_grid, SiteInfo.to_grid_coords, Micro.origin_x, Micro.origin_y,
      Micro.sub_micros, Micro.cells, Micro.hierarchical_path, Micro.site_info, Micro.name,
      Micro.grid_x, Micro.grid_y, Option.getD, List.foldl_cons, List.foldl_nil,
      List.map_cons, List.map_nil, List.headI, p0, p1, p2, p3, sB, sR, sRB]

theorem Micro.depth_eq (m : Micro) : m.depth = 1 + Micro.depthList m.sub_micros := by
  cases m
  rw [Micro.depth, Micro.sub_micros]

theorem Micro.depth_pos (m : Micro) : 1 ≤ m.depth := by
  rw [Micro.depth_eq]
  omega

theorem Micro.depth_withOriginGrid (m : Micro) (x y : ℚ) :
    (m.withOriginGrid x y).depth = m.depth := by
  cases m
  rw [Micro.withOriginGrid, Micro.depth, Micro.depth]

theorem Micro.depth_le_depthList (l : List Micro) (s : Micro) (hs : s ∈ l) :
    s.depth ≤ Micro.depthList l := by
  induction l with
  | nil => exact absurd hs (List.not_mem_nil s)
  | cons t rest ih =>
    rw [Micro.depthList]
    rcases List.mem_cons.mp hs with rfl | hs
    · exact Nat.le_max_left _ _
    · exact Nat.le_trans (ih hs) (Nat.le_max_right _ _)

theorem updateAbs_depth_aux (N : ℕ) :
    ∀ m : Micro, m.nodeCount ≤ N → (m.update_absolute_positions).depth = m.depth := by
  induction N with
  | zero =>
    intro m hm
    exact absurd hm (by have := m.nodeCount_pos; omega)
  | succ N ih =>
    have hlist : ∀ (l : List Micro) (px py : ℚ), Micro.nodeCountList l ≤ N →
        Micro.depthList (Micro.updateSubsForOrigin l px py) = Micro.depthList l := by
      intro l
      induction l with
      | nil =>
        intro px py _
        rw [Micro.updateSubsForOrigin]
      | cons s rest ihl =>
        intro px py hb
        rw [Micro.nodeCountList] at hb
        have hs1 := s.nodeCount_pos
        rw [Micro.updateSubsForOrigin, Micro.depthList, Micro.depthList]
        rw [ih _ (by rw [Micro.nodeCount_withOriginGrid]; omega),
          Micro.depth_withOriginGrid, ihl px py (by omega)]
    intro m hm
    cases m with
    | mk n ox oy d si cs hp gx gy subs =>
      rw [Micro.nodeCount] at hm
      rw [Micro.update_absolute_positions, Micro.depth, Micro.depth,
        hlist subs ox oy (by omega)]

theorem Micro.set_origin_depth (m : Micro) (x y : ℚ) : (m.set_origin x y).depth = m.depth := by
  unfold Micro.set_origin
  rw [updateAbs_depth_aux _ _ le_rfl, Micro.depth_withOriginGrid]

mutual
theorem Micro.setHier_depth (m : Micro) (p : String) :
    (m.set_hierarchical_path p).depth = m.depth := by
  cases m with
  | mk n ox oy d si cs hp gx gy subs =>
    rw [Micro.set_hierarchical_path, Micro.depth, Micro.depth, Micro.setPathList_depth]

theorem Micro.setPathList_depth (l : List Micro) (p : String) :
    Micro.depthList (Micro.setPathList l p) = Micro.depthList l := by
  cases l with
  | nil => rw [Micro.setPathList]
  | cons s rest =>
    rw [Micro.setPathList, Micro.depthList, Micro.depthList, Micro.setHier_depth,
      Micro.setPathList_depth]
end

theorem Micro.add_cell_depth (m : Micro) (c : Cell) : (m.add_cell c).depth = m.depth := by
  cases m
  rw [Micro.add_cell, Micro.depth, Micro.depth]

theorem foldl_add_cell_depth (cs : List Cell) (b : Micro) :
    (cs.foldl (fun acc c => acc.add_cell c.clone) b).depth = b.depth := by
  induction cs generalizing b with
  | nil => rfl
  | cons c rest ih => rw [List.foldl_cons, ih, Micro.add_cell_depth]

theorem Micro.depthList_append (l1 l2 : List Micro) :
    Micro.depthList (l1 ++ l2) = max (Micro.depthList l1) (Micro.depthList l2) := by
  induction l1 with
  | nil =>
    rw [List.nil_append, Micro.depthList]
    omega
  | cons s rest ih =>
    rw [List.cons_append, Micro.depthList, Micro.depthList, ih]
    omega

theorem cloneF_depth (k : ℕ) : ∀ (m : Micro) (nn : Option String),
    (Micro.cloneF k m nn).depth = m.depth := by
  induction k with
  | zero =>
    intro m nn
    rw [Micro.cloneF]
  | succ k ih =>
    intro m nn
    cases m with
    | mk n ox oy d si cs hp gx gy subs =>
      rw [Micro.cloneF, Micro.depth_eq, cloneSubsF_subs, foldl_add_cell_subs]
      rw [show (Micro.init (nn.getD n) ox oy d ⟨si.width, si.height⟩).sub_micros = [] from rfl,
        List.nil_append, Micro.depth]
      have hmap : ∀ l : List Micro, (∀ s ∈ l, s ∈ subs) →
          Micro.depthList (l.map (fun s =>
            ((Micro.cloneF k (Micro.cloneF k s none) none).set_hierarchical_path
                (List.foldl (fun acc c => acc.add_cell c.clone)
                  (Micro.init (nn.getD n) ox oy d ⟨si.width, si.height⟩)
                  cs).hierarchical_path).set_origin
              ((List.foldl (fun acc c => acc.add_cell c.clone)
                  (Micro.init (nn.getD n) ox oy d ⟨si.width, si.height⟩) cs).origin_x +
                ((Micro.cloneF k (Micro.cloneF k s none) none).set_hierarchical_path
                  (List.foldl (fun acc c => acc.add_cell c.clone)
                    (Micro.init (nn.getD n) ox oy d ⟨si.width, si.height⟩)
                    cs).hierarchical_path).origin_x)
              ((List.foldl (fun acc c => acc.add_cell c.clone)
                  (Micro.init (nn.getD n) ox oy d ⟨si.width, si.height⟩) cs).origin_y +
                ((Micro.cloneF k (Micro.cloneF k s none) none).set_hierarchical_path
                  (List.foldl (fun acc c => acc.add_cell c.clone)
                    (Micro.init (nn.getD n) ox oy d ⟨si.width, si.height⟩)
                    cs).hierarchical_path).origin_y))) = Micro.depthList l := by
        intro l
        induction l with
        | nil => intro _; rw [List.map_nil]
        | cons s rest ihl =>
          intro hmem
          rw [List.map_cons, Micro.depthList, Micro.depthList,
            ihl (fun t ht => hmem t (List.mem_cons_of_mem s ht))]
          rw [Micro.set_origin_depth, Micro.setHier_depth, ih, ih]
      rw [hmap subs (fun s hs => hs)]

theorem cloneF_stable (j : ℕ) : ∀ (k : ℕ) (m : Micro) (nn : Option String),
    m.depth ≤ j → m.depth ≤ k → Micro.cloneF j m nn = Micro.cloneF k m nn := by
  induction j with
  | zero =>
    intro k m nn hj _
    exact absurd hj (by have := m.depth_pos; omega)
  | succ j ih =>
    intro k m nn hj hk
    cases k with
    | zero => exact absurd hk (by have := m.depth_pos; omega)
    | succ k =>
      cases m with
      | mk n ox oy d si cs hp gx gy subs =>
        rw [Micro.depth] at hj hk
        rw [Micro.cloneF, Micro.cloneF]
        have hgen : ∀ l : List Micro, (∀ s ∈ l, s.depth ≤ j ∧ s.depth ≤ k) →
            ∀ acc : Micro, Micro.cloneSubsF j l acc = Micro.cloneSubsF k l acc := by
          intro l
          induction l with
          | nil =>
            intro _ acc
            rw [Micro.cloneSubsF, Micro.cloneSubsF]
          | cons s rest ihl =>
            intro hmem acc
            obtain ⟨hsj, hsk⟩ := hmem s (List.mem_cons_self s rest)
            have e1 : Micro.cloneF j s none = Micro.cloneF k s none := ih k s none hsj hsk
            have hdX : (Micro.cloneF k s none).depth = s.depth := cloneF_depth k s none
            have e2 : Micro.addSubF j acc (Micro.cloneF j s none)
                = Micro.addSubF k acc (Micro.cloneF k s none) := by
              rw [e1, Micro.addSubF, Micro.addSubF,
                ih k (Micro.cloneF k s none) none (by rw [hdX]; exact hsj)
                  (by rw [hdX]; exact hsk)]
            rw [Micro.cloneSubsF, Micro.cloneSubsF, e2,
              ihl (fun t ht => hmem t (List.mem_cons_of_mem s ht)) _]
        exact hgen subs
          (fun s hs =>
            ⟨Nat.le_trans (Micro.depth_le_depthList subs s hs) (by omega),
              Nat.le_trans (Micro.depth_le_depthList subs s hs) (by omega)⟩) _

/-- clone_fuel_irrelevant: any fuel at least the tree depth computes the
same clone as the depth itself, so the fuel in cloneF is an artifact and
Micro.clone agrees with the unbounded recursion of the source. -/
theorem Micro.clone_fuel_irrelevant (m : Micro) (nn : Option String) (k : ℕ)
    (hk : m.depth ≤ k) : Micro.cloneF k m nn = m.clone nn := by
  unfold Micro.clone
  exact cloneF_stable k m.depth m nn hk le_rfl

/-- addSubF_fuel_irrelevant: the fuel handed to add_sub_micro is likewise
irrelevant beyond the depth of the attached child. -/
theorem addSubF_fuel_irrelevant (k : ℕ) (m s : Micro) (hk : s.depth ≤ k) :
    Micro.addSubF k m s = m.add_sub_micro s := by
  unfold Micro.add_sub_micro
  have e1 : Micro.cloneF k s none = Micro.cloneF s.depth s none :=
    cloneF_stable k s.depth s none hk le_rfl
  rw [Micro.addSubF, Micro.addSubF, e1]

theorem flipF_depth (k : ℕ) : ∀ m : Micro, (Micro.flipF k m).depth = m.depth := by
  induction k with
  | zero =>
    intro m
    rw [Micro.flipF]
  | succ k ih =>
    intro m
    cases m with
    | mk n ox oy d si cs hp gx gy subs =>
      rw [Micro.flipF, updateAbs_depth_aux _ _ le_rfl, Micro.depth, Micro.depth]
      have hmap : ∀ l : List Micro, Micro.depthList (l.map (fun s =>
          Micro.flipF k (s.set_origin
            (((Micro.mk n ox oy d si cs hp gx gy subs).calculate_bounding_box).2.2.1 -
                ((Micro.mk n ox oy d si cs hp gx gy subs).calculate_bounding_box).1 -
                s.origin_x -
              ((s.calculate_bounding_box).2.2.1 - (s.calculate_bounding_box).1))
            s.origin_y))) = Micro.depthList l := by
        intro l
        induction l with
        | nil => rw [List.map_nil]
        | cons s rest ihl =>
          rw [List.map_cons, Micro.depthList, Micro.depthList, ihl, ih,
            Micro.set_origin_depth]
      rw [hmap subs]

theorem flipF_stable (j : ℕ) : ∀ (k : ℕ) (m : Micro), m.depth ≤ j → m.depth ≤ k →
    Micro.flipF j m = Micro.flipF k m := by
  induction j with
  | zero =>
    intro k m hj _
    exact absurd hj (by have := m.depth_pos; omega)
  | succ j ih =>
    intro k m hj hk
    cases k with
    | zero => exact absurd hk (by have := m.depth_pos; omega)
    | succ k =>
      cases m with
      | mk n ox oy d si cs hp gx gy subs =>
        rw [Micro.depth] at hj hk
        rw [Micro.flipF, Micro.flipF]
        have hmap : subs.map (fun s =>
            Micro.flipF j (s.set_origin
              (((Micro.mk n ox oy d si cs hp gx gy subs).calculate_bounding_box).2.2.1 -
                  ((Micro.mk n ox oy d si cs hp gx gy subs).calculate_bounding_box).1 -
                  s.origin_x -
                ((s.calculate_bounding_box).2.2.1 - (s.calculate_bounding_box).1))
              s.origin_y)) = subs.map (fun s =>
            Micro.flipF k (s.set_origin
              (((Micro.mk n ox oy d si cs hp gx gy subs).calculate_bounding_box).2.2.1 -
                  ((Micro.mk n ox oy d si cs hp gx gy subs).calculate_bounding_box).1 -
                  s.origin_x -
                ((s.calculate_bounding_box).2.2.1 - (s.calculate_bounding_box).1))
              s.origin_y)) := by
          refine List.map_congr_left ?_
          intro s hs
          have hd := Micro.depth_le_depthList subs s hs
          refine ih k _ ?_ ?_ <;> rw [Micro.set_origin_depth] <;> omega
        rw [hmap]

/-- flip_fuel_irrelevant: any fuel at least the tree depth computes the
same horizontal flip as the depth itself, so the fuel in flipF is an
artifact and Micro.flip_horizontal agrees with the unbounded recursion of
the source. -/
theorem Micro.flip_fuel_irrelevant (m : Micro) (k : ℕ) (hk : m.depth ≤ k) :
    Micro.flipF k m = m.flip_horizontal := by
  unfold Micro.flip_horizontal
  exact flipF_stable k m.depth m hk le_rfl

end PlaceEngine
